import Mathlib

/-!
# Beacon — verification of the log/geolocation/RPC pipeline

Shallow embedding of the Beacon dashboard's core services
(`beacon/services/logs.py`, `beacon/services/geolocation.py`,
`beacon/services/map_renderer.py`, `beacon/services/rpc.py`,
and the block-statistics display parsing in `beacon/app.py`),
together with theorems settling the specification claims about them.

Strings are processed as `List Char`; Python's regular expressions are
embedded as explicit scanners over character lists, and CPython library
behaviour used by the code (`str.strip`, `str.replace`, `str.split`,
`datetime.fromisoformat`, `list.sort`) is modelled function-by-function.
The host machine's local timezone (used by `datetime.astimezone`) is
modelled as a fixed UTC offset in minutes, passed as an ambient parameter.
-/

set_option autoImplicit false

namespace Beacon

/-! ## Character classes (ASCII, as in the log lines being parsed) -/

/-- Python regex `\w` (word character): `[A-Za-z0-9_]`. -/
def isWordChar (c : Char) : Bool :=
  c.isAlpha || c.isDigit || c = '_'

/-- Hexadecimal digit, as in the character class `[0-9a-fA-F]`. -/
def isHexChar (c : Char) : Bool :=
  c.isDigit || ('a' ≤ c && c ≤ 'f') || ('A' ≤ c && c ≤ 'F')

/-- The whitespace characters stripped by Python's `str.strip()`
(ASCII subset: space, tab, newline, vertical tab, form feed, carriage return). -/
def isPySpace (c : Char) : Bool :=
  c = ' ' || c = '\t' || c = '\n' || c = '\x0b' || c = '\x0c' || c = '\r'

/-- ASCII lowercasing of one character, as done by Python's `str.lower()`
on the ASCII addresses handled here. -/
def asciiLower (c : Char) : Char :=
  if 'A' ≤ c && c ≤ 'Z' then Char.ofNat (c.toNat + 32) else c

/-! ## List-of-characters string primitives -/

/-- `listPrefixOf pat l` = `l` starts with `pat`. -/
def listPrefixOf : List Char → List Char → Bool
  | [], _ => true
  | _ :: _, [] => false
  | a :: as, b :: bs => a == b && listPrefixOf as bs

/-- Substring containment, Python's `pat in s` for nonempty `pat`. -/
def containsSub (pat : List Char) : List Char → Bool
  | [] => listPrefixOf pat []
  | c :: cs => listPrefixOf pat (c :: cs) || containsSub pat cs

/-- Leading run of decimal digits and the remainder. -/
def spanDigits : List Char → List Char × List Char
  | [] => ([], [])
  | c :: cs =>
    if c.isDigit then
      let (ds, r) := spanDigits cs
      (c :: ds, r)
    else ([], c :: cs)

/-- Leading run of hexadecimal digits and the remainder. -/
def spanHex : List Char → List Char × List Char
  | [] => ([], [])
  | c :: cs =>
    if isHexChar c then
      let (ds, r) := spanHex cs
      (c :: ds, r)
    else ([], c :: cs)

/-- Numeric value of a digit run. -/
def digitsVal (l : List Char) : Nat :=
  l.foldl (fun n c => n * 10 + (c.toNat - '0'.toNat)) 0

/-- Python `str.strip()` (ASCII whitespace). -/
def pyStripList (l : List Char) : List Char :=
  ((l.dropWhile isPySpace).reverse.dropWhile isPySpace).reverse

/-- Python `str.strip()` on `String`. -/
def pyStrip (s : String) : String :=
  ⟨pyStripList s.toList⟩

/-- Python `s.replace(p, repl)` for a single-character pattern `p`. -/
def replaceChar (p : Char) (repl : List Char) : List Char → List Char
  | [] => []
  | c :: cs => (if c == p then repl else [c]) ++ replaceChar p repl cs

/-- Python `s.split(sep, 1)`: the part after the first occurrence of
(nonempty) `sep`, or `none` when `sep` does not occur. -/
def splitOnceAfter (sep : List Char) : List Char → Option (List Char)
  | [] => none
  | c :: cs =>
    if listPrefixOf sep (c :: cs) then some ((c :: cs).drop sep.length)
    else splitOnceAfter sep cs

/-- Python `s.split(sep)` for a single-character separator. -/
def splitOnChar (sep : Char) : List Char → List (List Char)
  | [] => [[]]
  | c :: cs =>
    match splitOnChar sep cs with
    | [] => [[]]
    | h :: t => if c == sep then [] :: h :: t else (c :: h) :: t

/-! ## Embedded regex scanners from `logs.py`

`height_re = \bheight=(\d+)\b` and `tx_re = \btx=(\d+)\b`:
`re.search` finds the leftmost position with a word boundary, the literal
key, a digit run and a trailing word boundary. -/

/-- Scanner for `\bKEY(\d+)\b` starting after an optional previous
character (which decides the leading word boundary). -/
def findKeyNumAux (key : List Char) (prev : Option Char) :
    List Char → Option Nat
  | [] => none
  | c :: cs =>
    let boundaryOk := match prev with
      | none => true
      | some p => !isWordChar p
    if boundaryOk && listPrefixOf key (c :: cs) then
      let after := (c :: cs).drop key.length
      let (ds, rest) := spanDigits after
      let endOk := match rest with
        | [] => true
        | r :: _ => !isWordChar r
      if !ds.isEmpty && endOk then some (digitsVal ds)
      else findKeyNumAux key (some c) cs
    else findKeyNumAux key (some c) cs

/-- `re.search(r"\bKEY(\d+)\b", s)`: the captured number of the leftmost
match. The key's first character is a word character in all uses, so the
leading `\b` amounts to "previous character absent or not a word character". -/
def findKeyNum (key : List Char) (l : List Char) : Option Nat :=
  findKeyNumAux key none l

/-- `re.search(r"(?:best|hash)=([0-9a-fA-F]{8,64})", s)`: leftmost
occurrence of `best=` or `hash=` followed by at least 8 hex digits;
the greedy capture takes at most 64 of them. -/
def findBestHash : List Char → Option (List Char)
  | [] => none
  | c :: cs =>
    if listPrefixOf "best=".toList (c :: cs)
        || listPrefixOf "hash=".toList (c :: cs) then
      let after := (c :: cs).drop 5
      let (hs, _) := spanHex after
      if 8 ≤ hs.length then some (hs.take 64) else findBestHash cs
    else findBestHash cs

/-- Maximal word-character runs of a string, left to right
(auxiliary: returns the currently open run and the completed runs). -/
def wordRunsAux : List Char → List Char × List (List Char)
  | [] => ([], [])
  | c :: cs =>
    let (cur, runs) := wordRunsAux cs
    if isWordChar c then (c :: cur, runs)
    else ([], if cur.isEmpty then runs else cur :: runs)

/-- Maximal word-character runs of a string, left to right. -/
def wordRuns (l : List Char) : List (List Char) :=
  let (cur, runs) := wordRunsAux l
  if cur.isEmpty then runs else cur :: runs

/-- `re.search(r"\b([0-9a-fA-F]{8,64})\b", s)`: since every hex digit is a
word character, the two word boundaries force the match to be a maximal
word-character run consisting entirely of hex digits, of length 8 to 64;
the leftmost such run wins. -/
def findHexRun (l : List Char) : Option (List Char) :=
  (wordRuns l).find? fun run =>
    run.all isHexChar && 8 ≤ run.length && run.length ≤ 64

/-! ## Civil-calendar time

Model of the instants handled by `datetime.fromisoformat` /
`datetime.astimezone` / `strftime` in `logs.py`. An instant is a count of
microseconds since the Unix epoch (`Int`). The proleptic-Gregorian
conversions below are the standard Julian-day-number formulas. -/

/-- Gregorian leap year. -/
def isLeapYear (y : Nat) : Bool :=
  y % 4 = 0 && (y % 100 ≠ 0 || y % 400 = 0)

/-- Number of days in a month (`y`, `m` with `1 ≤ m ≤ 12`). -/
def daysInMonth (y m : Nat) : Nat :=
  if m = 2 then (if isLeapYear y then 29 else 28)
  else if m = 4 || m = 6 || m = 9 || m = 11 then 30
  else 31

/-- Days from the Unix epoch (1970-01-01) to civil date `y-m-d`
(Julian-day-number formula; exact for `1 ≤ y ≤ 9999`, `1 ≤ m ≤ 12`). -/
def daysFromCivil (y m d : Nat) : Int :=
  let a := (14 - m) / 12
  let y' := y + 4800 - a
  let m' := m + 12 * a - 3
  let jdn := d + (153 * m' + 2) / 5 + 365 * y' + y' / 4 - y' / 100 + y' / 400 - 32045
  (jdn : Int) - 2440588

/-- Civil date `(y, m, d)` from a day count since the Unix epoch
(inverse of `daysFromCivil`). -/
def civilFromDays (z : Int) : Int × Nat × Nat :=
  let z' := z + 719468
  let era : Int := Int.fdiv z' 146097
  let doe : Nat := (z' - era * 146097).toNat
  let yoe : Nat := (doe - doe / 1460 + doe / 36524 - doe / 146096) / 365
  let y : Int := (yoe : Int) + era * 400
  let doy : Nat := doe - (365 * yoe + yoe / 4 - yoe / 100)
  let mp : Nat := (5 * doy + 2) / 153
  let d : Nat := doy - (153 * mp + 2) / 5 + 1
  let m : Nat := if mp < 10 then mp + 3 else mp - 9
  (if m ≤ 2 then y + 1 else y, m, d)

/-- A parsed wall-clock datetime: microseconds on the local clock since the
epoch, plus the explicit UTC offset in minutes when the string carried one
(`none` = naive datetime). -/
structure WallTime where
  wallMicros : Int
  offsetMinutes : Option Int
deriving Repr, DecidableEq

/-- Take exactly `n` digits; returns their value and the remainder. -/
def takeDigitsExact (n : Nat) (l : List Char) : Option (Nat × List Char) :=
  let ds := l.take n
  if ds.length = n && ds.all Char.isDigit then some (digitsVal ds, l.drop n)
  else none

/-- Parse `±HH:MM` (the UTC-offset suffix), returning minutes. -/
def parseOffset (l : List Char) : Option Int :=
  match l with
  | c :: rest =>
    if c = '+' || c = '-' then
      match takeDigitsExact 2 rest with
      | some (oh, r1) =>
        match r1 with
        | ':' :: r2 =>
          match takeDigitsExact 2 r2 with
          | some (om, r3) =>
            if r3 = [] && oh ≤ 23 && om ≤ 59 then
              some ((if c = '-' then -1 else 1) * ((oh : Int) * 60 + om))
            else none
          | none => none
        | _ => none
      | none => none
    else none
  | [] => none

/-- Parse the optional fractional-second part `.f{1..6}`, returning the
value in microseconds and the remainder. No fraction parses as 0. -/
def parseFraction (l : List Char) : Option (Nat × List Char) :=
  match l with
  | '.' :: rest =>
    let (ds, r) := spanDigits rest
    if 1 ≤ ds.length && ds.length ≤ 6 then
      some (digitsVal ds * 10 ^ (6 - ds.length), r)
    else none
  | _ => some (0, l)

/-- Model of CPython's `datetime.fromisoformat` on the subset of inputs the
daemon log produces: `YYYY-MM-DD` optionally followed by
`THH:MM:SS[.f{1,6}][±HH:MM]` (the code replaces a trailing `Z` with
`+00:00` before the call). Out-of-range fields are rejected, as in
CPython. Returns the local wall-clock microseconds and the explicit
offset, or `none` when parsing raises. -/
def fromIsoFormat (l : List Char) : Option WallTime :=
  match takeDigitsExact 4 l with
  | none => none
  | some (y, r1) =>
    match r1 with
    | '-' :: r2 =>
      match takeDigitsExact 2 r2 with
      | none => none
      | some (mo, r3) =>
        match r3 with
        | '-' :: r4 =>
          match takeDigitsExact 2 r4 with
          | none => none
          | some (d, r5) =>
            if 1 ≤ y && 1 ≤ mo && mo ≤ 12 && 1 ≤ d && d ≤ daysInMonth y mo then
              let dateMicros : Int := daysFromCivil y mo d * 86400000000
              match r5 with
              | [] => some ⟨dateMicros, none⟩
              | 'T' :: r6 =>
                match takeDigitsExact 2 r6 with
                | none => none
                | some (hh, r7) =>
                  match r7 with
                  | ':' :: r8 =>
                    match takeDigitsExact 2 r8 with
                    | none => none
                    | some (mi, r9) =>
                      match r9 with
                      | ':' :: r10 =>
                        match takeDigitsExact 2 r10 with
                        | none => none
                        | some (ss, r11) =>
                          if hh ≤ 23 && mi ≤ 59 && ss ≤ 59 then
                            match parseFraction r11 with
                            | none => none
                            | some (frac, r12) =>
                              let wall := dateMicros +
                                ((hh * 3600 + mi * 60 + ss : Nat) : Int) * 1000000 + frac
                              if r12 = [] then some ⟨wall, none⟩
                              else
                                match parseOffset r12 with
                                | some off => some ⟨wall, some off⟩
                                | none => none
                          else none
                      | _ => none
                  | _ => none
              | _ => none
            else none
        | _ => none
    | _ => none

/-- `datetime.astimezone()` applied to the parse result: an aware datetime
is converted using its own offset, a naive one is interpreted in the
host's local timezone (`tzOffMin` minutes east of UTC). The result is the
UTC instant in microseconds. -/
def toInstant (tzOffMin : Int) (w : WallTime) : Int :=
  w.wallMicros - (w.offsetMinutes.getD tzOffMin) * 60000000

/-- Decimal rendering zero-padded to width 2. -/
def pad2 (n : Nat) : String :=
  if n < 10 then "0" ++ toString n else toString n

/-- Decimal rendering zero-padded to width 4 (as `%Y` for the years at hand). -/
def pad4 (n : Nat) : String :=
  if n < 10 then "000" ++ toString n
  else if n < 100 then "00" ++ toString n
  else if n < 1000 then "0" ++ toString n
  else toString n

/-- `local_time.strftime("%Y-%m-%d %I:%M:%S %p")` for the UTC instant
`t` (microseconds) displayed in the host timezone `tzOffMin`. -/
def strftimeDisplay (tzOffMin : Int) (t : Int) : String :=
  let wall := t + tzOffMin * 60000000
  let days := Int.fdiv wall 86400000000
  let tod : Nat := (wall - days * 86400000000).toNat / 1000000
  let (y, mo, d) := civilFromDays days
  let hh := tod / 3600
  let mi := tod % 3600 / 60
  let ss := tod % 60
  let h12 := if hh % 12 = 0 then 12 else hh % 12
  let ampm := if hh < 12 then "AM" else "PM"
  pad4 y.toNat ++ "-" ++ pad2 mo ++ "-" ++ pad2 d ++ " " ++
    pad2 h12 ++ ":" ++ pad2 mi ++ ":" ++ pad2 ss ++ " " ++ ampm

/-! ## `LogTailer.get_update_tip_entries` (`beacon/services/logs.py`)

The reconstruction pipeline: scan the log lines newest-to-oldest for
`UpdateTip` lines, parse height / short hash / timestamp / tx count from
each, deduplicate by height (first occurrence in scan order wins, capped
at 200 entries), sort descending by height, and render the first
`min(limit, len)` rows with inter-row delta and empty-block marker. -/

/-- One parsed tip-update event, the tuple appended to `entries`:
`(height, hash_short, time_display, parsed_time, tx_count)`.
`parsedTime` is the UTC instant in microseconds (the code stores the
`astimezone()` result; only the instant and the rendered display are
observable). -/
structure TipEntry where
  height : Int
  hashShort : String
  timeDisplay : String
  parsedTime : Option Int
  txCount : Option Int
deriving Repr, DecidableEq

/-- A rendered output row `(height, hash_short, time_display,
delta_display, empty_marker)`. -/
structure TipRow where
  height : Int
  hashShort : String
  timeDisplay : String
  delta : String
  marker : String
deriving Repr, DecidableEq

/-- Python `line.split(" ", 1)[0]`: the characters before the first space. -/
def firstToken (l : List Char) : List Char :=
  l.takeWhile (fun c => c ≠ ' ')

/-- The loop body of `get_update_tip_entries` for one `UpdateTip` line:
height via `height_re` (−1 on no match), short hash via `hash_re` with
the bare-hex fallback, timestamp display and parse, tx count via `tx_re`.
`tzOffMin` is the host timezone used by `astimezone()`. -/
def parseTipLine (tzOffMin : Int) (l : List Char) : TipEntry :=
  let height : Int := match findKeyNum "height=".toList l with
    | some n => (n : Int)
    | none => -1
  let hashShort : String := match findBestHash l <|> findHexRun l with
    | some run => ⟨run.take 4⟩
    | none => "-"
  let timestamp := firstToken l
  let displayRaw := replaceChar 'T' [' '] timestamp
  let parsed := fromIsoFormat (replaceChar 'Z' "+00:00".toList timestamp)
  match parsed with
  | some w =>
    let inst := toInstant tzOffMin w
    ⟨height, hashShort, strftimeDisplay tzOffMin inst, some inst, txOf l⟩
  | none =>
    let display := if displayRaw.length > 19 then displayRaw.take 19 else displayRaw
    ⟨height, hashShort, ⟨display⟩, none, txOf l⟩
where
  /-- `tx_re` capture as an integer. -/
  txOf (l : List Char) : Option Int :=
    (findKeyNum "tx=".toList l).map (fun n => (n : Int))

/-- `"UpdateTip" in line`. -/
def isUpdateTipLine (l : List Char) : Bool :=
  containsSub "UpdateTip".toList l

/-- The scan loop over `reversed(lines)`: skip non-`UpdateTip` lines,
parse, skip heights already in `seen`, append, and stop once 200 entries
have been collected (`n` counts entries appended so far). -/
def collectEntries (tzOffMin : Int) : List (List Char) → List Int → Nat → List TipEntry
  | [], _, _ => []
  | line :: rest, seen, n =>
    if isUpdateTipLine line then
      let e := parseTipLine tzOffMin line
      if e.height ∈ seen then collectEntries tzOffMin rest seen n
      else if 200 ≤ n + 1 then [e]
      else e :: collectEntries tzOffMin rest (e.height :: seen) (n + 1)
    else collectEntries tzOffMin rest seen n

/-- The comparison behind `entries.sort(key=lambda item: item[0],
reverse=True)`: descending by height. -/
def tipGE (a b : TipEntry) : Prop := b.height ≤ a.height

instance : DecidableRel tipGE := fun a b => inferInstanceAs (Decidable (b.height ≤ a.height))

/-- The deduplicated, height-sorted entry list for a given log content
(lines in file order; the scan runs over their reversal). Python's
`list.sort` is stable; on the duplicate-free heights produced by the scan
any sort agrees, and the stable insertion sort used here renders it
faithfully. -/
def sortedEntries (tzOffMin : Int) (lines : List (List Char)) : List TipEntry :=
  List.insertionSort tipGE (collectEntries tzOffMin lines.reverse [] 0)

/-- `delta_display` for adjacent parsed instants `t1` (newer row) and `t2`
(next older row), microseconds: truncate `(t1 - t2)` to whole seconds,
take the absolute value, and format as `"Xm Ys"` / `"Ys"`. -/
def fmtDelta (t1 t2 : Int) : String :=
  let ds : Nat := ((t1 - t2).tdiv 1000000).natAbs
  let minutes := ds / 60
  let seconds := ds % 60
  if minutes ≠ 0 then s!"{minutes}m {seconds}s" else s!"{seconds}s"

/-- `empty_marker` for adjacent tx counts `a` (newer row) and `b` (next
older row): `"empty"` exactly when `b = a - 2`, otherwise
`max (|a - b| - 2) 0` followed by `" tx"`. -/
def fmtMarker (a b : Int) : String :=
  if b = a - 2 then "empty" else s!"{(max (|a - b| - 2) 0).toNat} tx"

/-- Fallback entry (never observed: used only to totalise list indexing). -/
def defaultEntry : TipEntry := ⟨0, "-", "-", none, none⟩

/-- Render output row `i` from the sorted entry list: delta and marker are
computed against entry `i + 1` when it exists, else left as `"-"` / `""`. -/
def renderRow (es : List TipEntry) (i : Nat) : TipRow :=
  let e := es.getD i defaultEntry
  match es[i + 1]? with
  | none => ⟨e.height, e.hashShort, e.timeDisplay, "-", ""⟩
  | some nxt =>
    let delta := match e.parsedTime, nxt.parsedTime with
      | some t1, some t2 => fmtDelta t1 t2
      | _, _ => "-"
    let marker := match e.txCount, nxt.txCount with
      | some a, some b => fmtMarker a b
      | _, _ => ""
    ⟨e.height, e.hashShort, e.timeDisplay, delta, marker⟩

/-- Placeholder row returned when no `UpdateTip` entries are found. -/
def noEntriesRow : TipRow := ⟨0, "-", "No UpdateTip entries.", "-", "-"⟩

/-- `LogTailer.get_update_tip_entries` on the readable-file path:
`lines` is the log content split into lines, `limit` the row budget.
Returns `(result_lines, latest_time, tz_name)`; `tzName` is the host
timezone's `strftime("%Z")` rendering (`str(tzinfo)` fallback included),
ambient like `tzOffMin`. -/
def getUpdateTipEntries (tzOffMin : Int) (tzName : String)
    (lines : List (List Char)) (limit : Nat) :
    List TipRow × Option Int × String :=
  let es := sortedEntries tzOffMin lines
  match es with
  | [] => ([noEntriesRow], none, "")
  | e0 :: _ =>
    let latest := e0.parsedTime
    let tz := if latest.isSome then tzName else ""
    ((List.range (min limit es.length)).map (renderRow es), latest, tz)

/-! ## `LogTailer.get_latest_block_statistics` and the display parsing
(`beacon/services/logs.py` lines 116–134, `beacon/app.py`
`_fetch_block_stats`) -/

/-- `s.replace("\r", "").replace("\n", "")` (`App._strip_crlf` and the
inline replaces in `get_latest_block_statistics`). -/
def stripCrlf (l : List Char) : List Char :=
  replaceChar '\n' [] (replaceChar '\r' [] l)

/-- Python `s.replace(pat, repl)` for a nonempty pattern: replace all
non-overlapping occurrences left to right (`fuel` bounds the recursion by
the input length). -/
def replaceSubAux (pat repl : List Char) : Nat → List Char → List Char
  | 0, l => l
  | _, [] => []
  | fuel + 1, c :: cs =>
    if listPrefixOf pat (c :: cs) then
      repl ++ replaceSubAux pat repl fuel ((c :: cs).drop pat.length)
    else c :: replaceSubAux pat repl fuel cs

/-- Python `s.replace(pat, repl)` for a nonempty pattern. -/
def replaceSub (pat repl l : List Char) : List Char :=
  replaceSubAux pat repl l.length l

/-- The reformatting `get_latest_block_statistics` applies to the found
line: when the separator `"Block Statistics - "` occurs, everything after
its first occurrence is kept (stripped, CR/LF removed) behind the
canonical prefix, otherwise the whole line is stripped. -/
def fmtStatLine (line : List Char) : List Char :=
  match splitOnceAfter "Block Statistics - ".toList line with
  | some after =>
    "Block Statistics - ".toList ++ stripCrlf (pyStripList after)
  | none => stripCrlf (pyStripList line)

/-- `LogTailer.get_latest_block_statistics` on the readable-file path:
the last line containing `"Block Statistics"` (first in the reversed
scan) is reformatted by `fmtStatLine`. -/
def getLatestBlockStatistics (lines : List (List Char)) : List Char :=
  match lines.reverse.find? (fun l => containsSub "Block Statistics".toList l) with
  | none => "Block Statistics: Not yet available".toList
  | some line => fmtStatLine line

/-- `re.match(r"([^:]+):\s*(\d+)s\s*(.+)", clause)` and the group
post-processing in `App._fetch_block_stats`: text before the first colon
(nonempty), optional whitespace, a digit run, the letter `s`, optional
whitespace, and a nonempty remainder. Groups 1 and 3 are stripped and
CR/LF-cleaned, group 2 is the integer of the digits. -/
def parseStatClause (l : List Char) : Option (String × Nat × String) :=
  let g1 := l.takeWhile (fun c => c ≠ ':')
  if g1.isEmpty then none
  else
    match l.drop g1.length with
    | ':' :: rest =>
      let rest2 := rest.dropWhile isPySpace
      let (ds, rest3) := spanDigits rest2
      if ds.isEmpty then none
      else
        match rest3 with
        | 's' :: rest4 =>
          let g3 := rest4.dropWhile isPySpace
          if g3.isEmpty then none
          else some (⟨stripCrlf (pyStripList g1)⟩, digitsVal ds,
            ⟨stripCrlf (pyStripList g3)⟩)
        | _ => none
    | _ => none

/-- The triple-extraction stage of `App._fetch_block_stats`: drop the
canonical prefix, strip, split on commas, and parse each nonempty
stripped clause into a `(period, totalSeconds, description)` triple. -/
def parsePeriodsOf (stats : List Char) : List (String × Nat × String) :=
  let raw := pyStripList (replaceSub "Block Statistics - ".toList [] stats)
  (splitOnChar ',' raw).filterMap fun piece =>
    let p := stripCrlf (pyStripList piece)
    if p.isEmpty then none else parseStatClause p

/-- `App._fetch_block_stats`: normalise the latest Block Statistics line
and extract the display triples from it. -/
def fetchBlockStats (lines : List (List Char)) :
    String × List (String × Nat × String) :=
  let stats := stripCrlf (getLatestBlockStatistics lines)
  (⟨stats⟩, parsePeriodsOf stats)

/-! ## `GeoCache` (`beacon/services/geolocation.py`)

State machine model: the in-memory cache and the on-disk JSON file are
association lists from IP string to record (the JSON dump/load round
trip is the identity on this data). Network resolution
(`_fetch_from_api`, the `geojs` my-location endpoint) is an oracle
parameter; each operation additionally reports how many network fetch
attempts it made, so "no network call" is a provable statement. -/

/-- A geolocation record `{lat, lon, country, ts}`. The `float`
coordinates are modelled as rationals (they are only stored and compared,
never computed with). -/
structure GeoRecord where
  lat : Rat
  lon : Rat
  country : String
  ts : Int
deriving Repr, DecidableEq

/-- Python `dict.get`: first binding of the key in the association list. -/
def pyDictGet {α : Type} (m : List (String × α)) (k : String) : Option α :=
  (m.find? (fun kv => kv.1 = k)).map (fun kv => kv.2)

/-- Python `dict[k] = v`: overwrite in place, else append. -/
def pyDictSet {α : Type} : List (String × α) → String → α → List (String × α)
  | [], k, v => [(k, v)]
  | (k', v') :: rest, k, v =>
    if k' = k then (k, v) :: rest else (k', v') :: pyDictSet rest k v

/-- The anchored prefix alternation `PRIVATE_IP_PATTERN`:
`^(127\.|10\.|172\.(1[6-9]|2[0-9]|3[01])\.|192\.168\.|::1$|fe80:|fc00:|fd00:)`. -/
def privateIpPatternMatch (l : List Char) : Bool :=
  listPrefixOf "127.".toList l
  || listPrefixOf "10.".toList l
  || (listPrefixOf "172.".toList l &&
      (match l.drop 4 with
       | a :: b :: '.' :: _ =>
         (a = '1' && '6' ≤ b && b ≤ '9')
         || (a = '2' && b.isDigit)
         || (a = '3' && (b = '0' || b = '1'))
       | _ => false))
  || listPrefixOf "192.168.".toList l
  || l = "::1".toList
  || listPrefixOf "fe80:".toList l
  || listPrefixOf "fc00:".toList l
  || listPrefixOf "fd00:".toList l

/-- `_is_private_or_local`: strip and lowercase, treat the empty string,
`localhost` and `::1` as local, else match the private-prefix pattern. -/
def isPrivateOrLocal (ip : String) : Bool :=
  let ipClean := (pyStripList ip.toList).map asciiLower
  if ipClean.isEmpty then true
  else if ipClean = "localhost".toList || ipClean = "::1".toList then true
  else privateIpPatternMatch ipClean

/-- `GeoCache` state: the in-memory dict and the on-disk cache file
(`none` = file absent). -/
structure GeoState where
  cache : List (String × GeoRecord)
  file : Option (List (String × GeoRecord))
deriving Repr, DecidableEq

/-- `GeoCache.__init__` / `_load_cache`: a freshly constructed instance
over a given cache file starts from the file's contents (empty dict when
the file is absent). -/
def freshGeoCache (file : Option (List (String × GeoRecord))) : GeoState :=
  ⟨file.getD [], file⟩

/-- `_save_cache` applied after a cache mutation: the whole dict is
written to the file (the success path; write errors are swallowed by the
code and not modelled). -/
def saveCache (cache : List (String × GeoRecord)) : GeoState :=
  ⟨cache, some cache⟩

/-- The reserved key for the node's own location. -/
def myLocationKey : String := "__my_location__"

/-- `MY_LOCATION_TTL` (seconds). -/
def myLocationTTL : Int := 3600

/-- The address normalisation at the top of `GeoCache.lookup`: strip,
then remove `[` and `]` (lines 136–139 of `geolocation.py`). -/
def cleanIp (ip : String) : String :=
  ⟨replaceChar ']' [] (replaceChar '[' [] (pyStrip ip).toList)⟩

/-- `GeoCache.lookup`: reject a blank address, normalise, reject
private/local addresses, then cache hit or network fetch; only successful
fetches are written back (memory and disk). Returns
`(record?, new state, network fetch attempts)`. -/
def lookup (st : GeoState) (net : String → Option GeoRecord) (ip : String) :
    Option GeoRecord × GeoState × Nat :=
  if pyStrip ip = "" then (none, st, 0)
  else
    let ipClean : String := cleanIp ip
    if isPrivateOrLocal ipClean then (none, st, 0)
    else
      match pyDictGet st.cache ipClean with
      | some rec => (some rec, st, 0)
      | none =>
        match net ipClean with
        | some rec => (some rec, saveCache (pyDictSet st.cache ipClean rec), 1)
        | none => (none, st, 1)

/-- `GeoCache.get_my_location`: return the cached coordinates while the
reserved record is younger than the TTL; otherwise fetch, overwrite the
record (timestamped `now`) on success, and return `none` on failure.
`net` is the my-IP geo endpoint's parsed answer `(lat, lon, country)`. -/
def getMyLocation (st : GeoState) (now : Int)
    (net : Option (Rat × Rat × String)) :
    Option (Rat × Rat) × GeoState × Nat :=
  match pyDictGet st.cache myLocationKey with
  | some c =>
    if now - c.ts < myLocationTTL then (some (c.lat, c.lon), st, 0)
    else getMyLocationFetch st now net
  | none => getMyLocationFetch st now net
where
  /-- The fetch-and-store path shared by the miss and expired cases. -/
  getMyLocationFetch (st : GeoState) (now : Int)
      (net : Option (Rat × Rat × String)) :
      Option (Rat × Rat) × GeoState × Nat :=
    match net with
    | some (lat, lon, cc) =>
      let record := GeoRecord.mk lat lon ⟨cc.toList.take 2⟩ now
      (some (lat, lon), saveCache (pyDictSet st.cache myLocationKey record), 1)
    | none => (none, st, 1)

/-! ## Marker placement in `generate_map` (`beacon/services/map_renderer.py`
lines 137–159)

The marker grid `marker_cells : dict[(col, row), peer_index]` is modelled
as a function from cells to an optional peer index. The float
latitude/longitude-to-cell computation (`col_for_lon`, the row formula)
is taken as the per-marker input `base` (a pair of pre-clamp integers):
the claims quantify over the computed base cell, and the collision logic
from the clamping onward is embedded exactly. -/

/-- The marker grid: occupied cells to peer index. -/
def CellMap : Type := Nat × Nat → Option Nat

/-- Dict write `marker_cells[(c, r)] = i`. -/
def cellSet (g : CellMap) (cell : Nat × Nat) (i : Nat) : CellMap :=
  fun c => if c = cell then some i else g c

/-- Integers `a, a+1, …, b` (inclusive). -/
def rangeInt (a b : Int) : List Int :=
  (List.range (b - a + 1).toNat).map (fun i => a + (i : Int))

/-- The spiral offset list: `(0,0)`, then for `r = 1, 2` every `(dc, dr)`
with `dc, dr ∈ [-r, r]` and `|dc| = r` or `|dr| = r`, in the Python loop
order. -/
def spiralOffsets : List (Int × Int) :=
  (0, 0) :: (rangeInt 1 2).flatMap fun r =>
    (rangeInt (-r) r).flatMap fun dc =>
      (rangeInt (-r) r).filterMap fun dr =>
        if |dc| = r || |dr| = r then some (dc, dr) else none

/-- Clamp `v` into `[0, n-1]` (`max(0, min(n - 1, v))`). -/
def clampCoord (n : Nat) (v : Int) : Int :=
  max 0 (min ((n : Int) - 1) v)

/-- The per-offset test of the spiral search
(`0 <= c < cols and 0 <= r < rows and (c, r) not in marker_cells`):
the offset cell is inside the grid and still free. -/
def inBoundsFree (cols rows : Nat) (g : CellMap) (bc br : Int)
    (o : Int × Int) : Bool :=
  decide (0 ≤ bc + o.1) && decide (bc + o.1 < (cols : Int)) &&
  decide (0 ≤ br + o.2) && decide (br + o.2 < (rows : Int)) &&
  (g (((bc + o.1).toNat, (br + o.2).toNat))).isNone

/-- The spiral search for marker `idx` with raw base cell `base`: the
clamped base cell plus the first offset giving an in-bounds free cell;
when no offset qualifies, the base cell itself is overwritten (the
`for…else` branch). -/
def placeMarker (cols rows : Nat) (g : CellMap) (idx : Nat)
    (base : Int × Int) : CellMap :=
  let bc := clampCoord cols base.1
  let br := clampCoord rows base.2
  match spiralOffsets.find? (inBoundsFree cols rows g bc br) with
  | some o => cellSet g (((bc + o.1).toNat, (br + o.2).toNat)) idx
  | none => cellSet g ((bc.toNat, br.toNat)) idx

/-- The cell marker `idx` ends up in (the cell `placeMarker` writes). -/
def placedCell (cols rows : Nat) (g : CellMap) (base : Int × Int) : Nat × Nat :=
  let bc := clampCoord cols base.1
  let br := clampCoord rows base.2
  match spiralOffsets.find? (inBoundsFree cols rows g bc br) with
  | some o => ((bc + o.1).toNat, (br + o.2).toNat)
  | none => (bc.toNat, br.toNat)

/-- The placement loop body: process the remaining markers, `i` being the
index `enumerate` gives the next one. -/
def placeMarkersAux (cols rows : Nat) : CellMap → Nat → List (Int × Int) → CellMap
  | g, _, [] => g
  | g, i, b :: bs => placeMarkersAux cols rows (placeMarker cols rows g i b) (i + 1) bs

/-- The full placement loop `for peer_idx, (lat, lon) in enumerate(markers)`
over the raw base cells, starting from an empty grid. -/
def placeMarkers (cols rows : Nat) (bases : List (Int × Int)) : CellMap :=
  placeMarkersAux cols rows (fun _ => none) 0 bases

/-- The cell marker `i` is written to during the placement loop: the
`placedCell` of the grid state after the first `i` markers. -/
def assignedCell (cols rows : Nat) (bases : List (Int × Int)) (i : Nat) : Nat × Nat :=
  placedCell cols rows (placeMarkers cols rows (bases.take i)) (bases.getD i (0, 0))

/-! ## `RpcClient.sendtoaddress` / `RpcClient.sweep_to_address`
(`beacon/services/rpc.py` lines 196–239)

The HTTP JSON-RPC endpoint and the `lynx-cli` subprocess are oracles in a
`World`; each operation also returns the list of network calls it issued,
with their channel, method and parameters, so "no call was attempted" and
"the CLI fallback uses the same parameters" are provable statements.
Python floats are modelled as rationals; an amount argument on which
`float()` raises `TypeError`/`ValueError` is modelled as `AmountInput.invalid`. -/

/-- A parameter of an RPC / CLI call. -/
inductive RpcParam where
  | str (v : String)
  | num (v : Rat)
  | bool (v : Bool)
deriving Repr, DecidableEq

/-- A network call issued by an operation: channel (HTTP RPC or CLI
subprocess), method name, parameters, in issue order. -/
inductive CallEvent where
  | rpc (method : String) (params : List RpcParam)
  | cli (method : String) (params : List RpcParam)
deriving Repr, DecidableEq

/-- The `amount` argument as seen by `float(amount)`: a numeric value, or
one that raises (caught as "Invalid amount"). -/
inductive AmountInput where
  | val (q : Rat)
  | invalid
deriving Repr, DecidableEq

/-- `float(amount)` under the `try/except (TypeError, ValueError)`. -/
def floatOf : AmountInput → Option Rat
  | .val q => some q
  | .invalid => none

/-- Responses of the outside world to the calls the two wallet operations
can make. `none` on the RPC side = the call raised (missing credentials,
HTTP error, or an `error` field); the payload is the `str()` rendering of
a non-`None` result. On the CLI side `none` = `_cli_call_with_params`
returned `None` (spawn failure, nonzero exit, or empty output); the
payload is the final txid string (after the `result.get("txid", result)`
projection for dict results). -/
structure RpcWorld where
  rpcSend : Option (Option String)
  cliSend : Option String
  balance : Option Rat
deriving Repr, DecidableEq

/-- `RpcClient.sendtoaddress`: validate (blank address, unparseable
amount, non-positive amount — each rejected before any network call),
then HTTP RPC, then CLI fallback with the same parameters. Returns
`((success, txid_or_error_message), calls issued)`. -/
def sendtoaddress (w : RpcWorld) (address : String) (amount : AmountInput) :
    (Bool × String) × List CallEvent :=
  let addr := pyStrip address
  if addr = "" then ((false, "Address is required"), [])
  else
    match floatOf amount with
    | none => ((false, "Invalid amount"), [])
    | some amt =>
      if amt ≤ 0 then ((false, "Amount must be positive"), [])
      else
        let params := [RpcParam.str addr, RpcParam.num amt]
        match w.rpcSend with
        | some result =>
          ((true, result.getD "Sent"), [.rpc "sendtoaddress" params])
        | none =>
          match w.cliSend with
          | some txid =>
            ((true, txid), [.rpc "sendtoaddress" params, .cli "sendtoaddress" params])
          | none =>
            ((false, "Send failed"), [.rpc "sendtoaddress" params, .cli "sendtoaddress" params])

/-- `RpcClient.sweep_to_address`: validate the address, fetch the current
balance via `_safe_call("getbalance")` (recorded as a `getbalance` call;
`none` = the query failed, defaulted to `0.0`), refuse to sweep a
non-positive balance, then send the full fetched balance with
`sendtoaddress(addr, bal, "", "", True)` over HTTP RPC with CLI fallback. -/
def sweep_to_address (w : RpcWorld) (address : String) :
    (Bool × String) × List CallEvent :=
  let addr := pyStrip address
  if addr = "" then ((false, "Address is required"), [])
  else
    let balCall := CallEvent.rpc "getbalance" []
    let bal := (w.balance).getD 0
    if bal ≤ 0 then ((false, "No balance to sweep"), [balCall])
    else
      let params := [RpcParam.str addr, RpcParam.num bal,
        RpcParam.str "", RpcParam.str "", RpcParam.bool true]
      match w.rpcSend with
      | some result =>
        ((true, result.getD "Swept"), [balCall, .rpc "sendtoaddress" params])
      | none =>
        match w.cliSend with
        | some txid =>
          ((true, txid), [balCall, .rpc "sendtoaddress" params, .cli "sendtoaddress" params])
        | none =>
          ((false, "Sweep failed"), [balCall, .rpc "sendtoaddress" params, .cli "sendtoaddress" params])

/-- Predicate: the call event is a send operation (either channel). -/
def isSendCall : CallEvent → Bool
  | .rpc m _ => m = "sendtoaddress"
  | .cli m _ => m = "sendtoaddress"

/-! ## Helper lemmas -/

/-- Truncating division toward zero followed by `abs` agrees with
flooring division of the absolute value (`int(x.total_seconds())` then
`abs`, for a microsecond-exact difference). -/
theorem natAbs_tdiv_million (x : Int) : (x.tdiv 1000000).natAbs = x.natAbs / 1000000 := by
  cases x with
  | ofNat a =>
    show ((Int.ofNat a).tdiv (Int.ofNat 1000000)).natAbs = _
    simp [Int.tdiv]
    omega
  | negSucc a =>
    show ((Int.negSucc a).tdiv (Int.ofNat 1000000)).natAbs = _
    simp [Int.tdiv]
    omega

/-- `fmtDelta` in the spec's terms: the absolute difference in whole
seconds, rendered `"Xm Ys"` from 60 seconds up and `"Ys"` below. -/
theorem fmtDelta_spec (t1 t2 : Int) :
    fmtDelta t1 t2 =
      (if 60 ≤ (t1 - t2).natAbs / 1000000 then
        s!"{(t1 - t2).natAbs / 1000000 / 60}m {(t1 - t2).natAbs / 1000000 % 60}s"
      else s!"{(t1 - t2).natAbs / 1000000}s") := by
  unfold fmtDelta
  rw [natAbs_tdiv_million]
  by_cases h : 60 ≤ (t1 - t2).natAbs / 1000000
  · have hne : (t1 - t2).natAbs / 1000000 / 60 ≠ 0 := by omega
    simp [h, hne]
  · have h0 : (t1 - t2).natAbs / 1000000 / 60 = 0 := by omega
    have hm : (t1 - t2).natAbs / 1000000 % 60 = (t1 - t2).natAbs / 1000000 := by omega
    simp [h, h0, hm]

/-- The fields of a rendered row with an existing next-older entry. -/
theorem renderRow_of_next (es : List TipEntry) (i : Nat) (e1 e2 : TipEntry)
    (h1 : es[i]? = some e1) (h2 : es[i + 1]? = some e2) :
    renderRow es i =
      ⟨e1.height, e1.hashShort, e1.timeDisplay,
       (match e1.parsedTime, e2.parsedTime with
        | some t1, some t2 => fmtDelta t1 t2
        | _, _ => "-"),
       (match e1.txCount, e2.txCount with
        | some a, some b => fmtMarker a b
        | _, _ => "")⟩ := by
  unfold renderRow
  rw [List.getD_eq_getElem?_getD, h1, h2]
  rfl

/-- Row `i` of the output is the rendering of sorted entry `i`. -/
theorem rows_getElem? (tz : Int) (tn : String) (lines : List (List Char)) (limit i : Nat)
    (hne : sortedEntries tz lines ≠ [])
    (hi : i < min limit (sortedEntries tz lines).length) :
    (getUpdateTipEntries tz tn lines limit).1[i]?
      = some (renderRow (sortedEntries tz lines) i) := by
  obtain ⟨e0, tl, hes⟩ : ∃ e0 tl, sortedEntries tz lines = e0 :: tl := by
    cases h : sortedEntries tz lines with
    | nil => exact absurd h hne
    | cons a b => exact ⟨a, b, rfl⟩
  rw [hes] at hi ⊢
  simp only [getUpdateTipEntries, hes]
  rw [List.getElem?_map, List.getElem?_range hi]
  rfl

/-- A key just written into a Python dict reads back as the written value. -/
theorem pyDictGet_set_self {α : Type} (m : List (String × α)) (k : String) (v : α) :
    pyDictGet (pyDictSet m k v) k = some v := by
  induction m with
  | nil => simp [pyDictGet, pyDictSet]
  | cons kv rest ih =>
    by_cases h : kv.1 = k
    · simp [pyDictGet, pyDictSet, h]
    · simpa [pyDictGet, pyDictSet, h, List.find?] using ih

/-- A blank string cleans to the blank string. -/
theorem cleanIp_of_strip_empty {ip : String} (h : pyStrip ip = "") :
    cleanIp ip = "" := by
  unfold cleanIp
  rw [h]
  rfl

/-! ## Claim C2 infrastructure — the scan loop without its 200-entry cap -/

/-- The scan loop of `get_update_tip_entries` with the 200-entry cap
removed (reference version for reasoning; `collectEntries_eq_noCap` shows
the capped loop agrees with it whenever at most 200 entries arise). -/
def collectEntriesNoCap (tzOffMin : Int) : List (List Char) → List Int → List TipEntry
  | [], _ => []
  | line :: rest, seen =>
    if isUpdateTipLine line then
      let e := parseTipLine tzOffMin line
      if e.height ∈ seen then collectEntriesNoCap tzOffMin rest seen
      else e :: collectEntriesNoCap tzOffMin rest (e.height :: seen)
    else collectEntriesNoCap tzOffMin rest seen

/-- The parsed heights of the tip-update lines in scan order
(newest to oldest); a line whose height fails to parse contributes `-1`. -/
def updateTipHeights (tzOffMin : Int) (lines : List (List Char)) : List Int :=
  (lines.reverse.filter isUpdateTipLine).map (fun l => (parseTipLine tzOffMin l).height)

/-- Below the cap, the capped scan loop equals the uncapped one. -/
theorem collectEntries_eq_noCap (tz : Int) :
    ∀ (L : List (List Char)) (seen : List Int) (n : Nat),
      n + (collectEntriesNoCap tz L seen).length ≤ 200 →
      collectEntries tz L seen n = collectEntriesNoCap tz L seen
  | [], _, _, _ => rfl
  | line :: rest, seen, n, h => by
    by_cases hu : isUpdateTipLine line
    · by_cases hseen : (parseTipLine tz line).height ∈ seen
      · rw [show collectEntriesNoCap tz (line :: rest) seen
              = collectEntriesNoCap tz rest seen from by
            simp [collectEntriesNoCap, hu, hseen]] at h ⊢
        rw [show collectEntries tz (line :: rest) seen n
              = collectEntries tz rest seen n from by
            simp [collectEntries, hu, hseen]]
        exact collectEntries_eq_noCap tz rest seen n h
      · rw [show collectEntriesNoCap tz (line :: rest) seen
              = parseTipLine tz line ::
                  collectEntriesNoCap tz rest ((parseTipLine tz line).height :: seen) from by
            simp [collectEntriesNoCap, hu, hseen]] at h ⊢
        by_cases hcap : 200 ≤ n + 1
        · have hz : (collectEntriesNoCap tz rest
              ((parseTipLine tz line).height :: seen)).length = 0 := by
            simp at h
            omega
          rw [List.length_eq_zero] at hz
          rw [show collectEntries tz (line :: rest) seen n = [parseTipLine tz line] from by
            simp [collectEntries, hu, hseen, hcap], hz]
        · rw [show collectEntries tz (line :: rest) seen n
                = parseTipLine tz line ::
                    collectEntries tz rest ((parseTipLine tz line).height :: seen) (n + 1) from by
              simp [collectEntries, hu, hseen, hcap]]
          have : n + 1 + (collectEntriesNoCap tz rest
              ((parseTipLine tz line).height :: seen)).length ≤ 200 := by
            simp at h
            omega
          rw [collectEntries_eq_noCap tz rest _ (n + 1) this]
    · rw [show collectEntriesNoCap tz (line :: rest) seen
            = collectEntriesNoCap tz rest seen from by
          simp [collectEntriesNoCap, hu]] at h ⊢
      rw [show collectEntries tz (line :: rest) seen n
            = collectEntries tz rest seen n from by
          simp [collectEntries, hu]]
      exact collectEntries_eq_noCap tz rest seen n h

/-- Entries produced by the scan have heights outside the ambient `seen` set. -/
theorem collectNoCap_height_notin_seen (tz : Int) :
    ∀ (L : List (List Char)) (seen : List Int),
      ∀ e ∈ collectEntriesNoCap tz L seen, e.height ∉ seen
  | [], _, e, he => by simp [collectEntriesNoCap] at he
  | line :: rest, seen, e, he => by
    by_cases hu : isUpdateTipLine line
    · by_cases hseen : (parseTipLine tz line).height ∈ seen
      · rw [show collectEntriesNoCap tz (line :: rest) seen
              = collectEntriesNoCap tz rest seen from by
            simp [collectEntriesNoCap, hu, hseen]] at he
        exact collectNoCap_height_notin_seen tz rest seen e he
      · rw [show collectEntriesNoCap tz (line :: rest) seen
              = parseTipLine tz line ::
                  collectEntriesNoCap tz rest ((parseTipLine tz line).height :: seen) from by
            simp [collectEntriesNoCap, hu, hseen]] at he
        rcases List.mem_cons.mp he with he | he
        · rw [he]
          exact hseen
        · have := collectNoCap_height_notin_seen tz rest _ e he
          intro hmem
          exact this (List.mem_cons_of_mem _ hmem)
    · rw [show collectEntriesNoCap tz (line :: rest) seen
            = collectEntriesNoCap tz rest seen from by
          simp [collectEntriesNoCap, hu]] at he
      exact collectNoCap_height_notin_seen tz rest seen e he

/-- The scan deduplicates: the produced heights are pairwise distinct. -/
theorem collectNoCap_heights_nodup (tz : Int) :
    ∀ (L : List (List Char)) (seen : List Int),
      ((collectEntriesNoCap tz L seen).map TipEntry.height).Nodup
  | [], _ => by simp [collectEntriesNoCap]
  | line :: rest, seen => by
    by_cases hu : isUpdateTipLine line
    · by_cases hseen : (parseTipLine tz line).height ∈ seen
      · rw [show collectEntriesNoCap tz (line :: rest) seen
              = collectEntriesNoCap tz rest seen from by
            simp [collectEntriesNoCap, hu, hseen]]
        exact collectNoCap_heights_nodup tz rest seen
      · rw [show collectEntriesNoCap tz (line :: rest) seen
              = parseTipLine tz line ::
                  collectEntriesNoCap tz rest ((parseTipLine tz line).height :: seen) from by
            simp [collectEntriesNoCap, hu, hseen]]
        rw [List.map_cons, List.nodup_cons]
        refine ⟨?_, collectNoCap_heights_nodup tz rest _⟩
        intro hmem
        obtain ⟨e, he, heq⟩ := List.mem_map.mp hmem
        have := collectNoCap_height_notin_seen tz rest _ e he
        rw [heq] at this
        exact this (List.mem_cons_self _ _)
    · rw [show collectEntriesNoCap tz (line :: rest) seen
            = collectEntriesNoCap tz rest seen from by
          simp [collectEntriesNoCap, hu]]
      exact collectNoCap_heights_nodup tz rest seen

/-- A height is produced by the scan iff it is not in the ambient `seen`
set and some tip-update line parses to it. -/
theorem collectNoCap_mem_height (tz : Int) :
    ∀ (L : List (List Char)) (seen : List Int) (h : Int),
      h ∈ (collectEntriesNoCap tz L seen).map TipEntry.height ↔
        (h ∉ seen ∧
          h ∈ (L.filter isUpdateTipLine).map (fun l => (parseTipLine tz l).height))
  | [], seen, h => by simp [collectEntriesNoCap]
  | line :: rest, seen, h => by
    by_cases hu : isUpdateTipLine line
    · by_cases hseen : (parseTipLine tz line).height ∈ seen
      · rw [show collectEntriesNoCap tz (line :: rest) seen
              = collectEntriesNoCap tz rest seen from by
            simp [collectEntriesNoCap, hu, hseen]]
        rw [collectNoCap_mem_height tz rest seen h,
          show ((line :: rest).filter isUpdateTipLine)
              = line :: rest.filter isUpdateTipLine from by
            simp [List.filter_cons, hu],
          List.map_cons, List.mem_cons]
        constructor
        · rintro ⟨hns, hm⟩
          exact ⟨hns, Or.inr hm⟩
        · rintro ⟨hns, hm | hm⟩
          · rw [hm] at hns
            exact absurd hseen hns
          · exact ⟨hns, hm⟩
      · rw [show collectEntriesNoCap tz (line :: rest) seen
              = parseTipLine tz line ::
                  collectEntriesNoCap tz rest ((parseTipLine tz line).height :: seen) from by
            simp [collectEntriesNoCap, hu, hseen]]
        rw [List.map_cons, List.mem_cons, collectNoCap_mem_height tz rest _ h,
          show ((line :: rest).filter isUpdateTipLine)
              = line :: rest.filter isUpdateTipLine from by
            simp [List.filter_cons, hu],
          List.map_cons, List.mem_cons]
        simp only [List.mem_cons]
        constructor
        · rintro (heq | ⟨hns, hm⟩)
          · subst heq
            exact ⟨hseen, Or.inl rfl⟩
          · exact ⟨fun hs => hns (Or.inr hs), Or.inr hm⟩
        · rintro ⟨hns, heq | hm⟩
          · exact Or.inl heq
          · by_cases hh : h = (parseTipLine tz line).height
            · exact Or.inl hh
            · exact Or.inr ⟨fun hor => hor.elim hh hns, hm⟩
    · rw [show collectEntriesNoCap tz (line :: rest) seen
            = collectEntriesNoCap tz rest seen from by
          simp [collectEntriesNoCap, hu]]
      rw [collectNoCap_mem_height tz rest seen h]
      simp [List.filter_cons, hu]

instance : IsTotal TipEntry tipGE :=
  ⟨fun a b => le_total b.height a.height⟩

instance : IsTrans TipEntry tipGE :=
  ⟨fun _ _ _ hab hbc => le_trans hbc hab⟩

/-- The height field of a parsed line, by regex outcome. -/
theorem parseTipLine_height (tz : Int) (l : List Char) :
    (parseTipLine tz l).height
      = (match findKeyNum "height=".toList l with
         | some n => (n : Int)
         | none => -1) := by
  unfold parseTipLine
  dsimp only
  cases fromIsoFormat (replaceChar 'Z' "+00:00".toList (firstToken l)) <;> rfl

/-- A parsed height is the failure sentinel `-1` or a nonnegative number. -/
theorem parseTipLine_height_cases (tz : Int) (l : List Char) :
    (parseTipLine tz l).height = -1 ∨ 0 ≤ (parseTipLine tz l).height := by
  rw [parseTipLine_height]
  cases findKeyNum "height=".toList l <;> simp

/-- The height of a rendered row is the height of its entry. -/
theorem renderRow_height_getD (es : List TipEntry) (i : Nat) :
    (renderRow es i).height = (es.getD i defaultEntry).height := by
  unfold renderRow
  cases h : es[i + 1]? <;> simp [h]

/-- The whole row list of `get_update_tip_entries` (nonempty case). -/
theorem getRows_eq (tz : Int) (tn : String) (lines : List (List Char)) (limit : Nat)
    (hne : sortedEntries tz lines ≠ []) :
    (getUpdateTipEntries tz tn lines limit).1
      = (List.range (min limit (sortedEntries tz lines).length)).map
          (renderRow (sortedEntries tz lines)) := by
  obtain ⟨e0, tl, hes⟩ : ∃ e0 tl, sortedEntries tz lines = e0 :: tl := by
    cases h : sortedEntries tz lines with
    | nil => exact absurd h hne
    | cons a b => exact ⟨a, b, rfl⟩
  rw [hes]
  simp only [getUpdateTipEntries, hes]

/-- Rendering every index of the entry list reproduces the entry heights. -/
theorem rows_map_height (es : List TipEntry) :
    (List.range es.length).map (fun i => (renderRow es i).height)
      = es.map TipEntry.height := by
  apply List.ext_getElem?
  intro i
  rw [List.getElem?_map, List.getElem?_map]
  by_cases hi : i < es.length
  · rw [List.getElem?_range hi, List.getElem?_eq_getElem hi]
    simp only [Option.map_some']
    rw [renderRow_height_getD, List.getD_eq_getElem?_getD, List.getElem?_eq_getElem hi]
    rfl
  · rw [List.getElem?_eq_none (by simpa using hi),
      List.getElem?_eq_none (by simpa using hi)]
    rfl

/-- In a strictly descending list over `{-1} ∪ [0, ∞)` that contains `-1`,
the last element is `-1`. -/
theorem chain_desc_getLast (l : List Int) :
    ∀ x : Int, List.Chain' (fun a b : Int => b < a) (x :: l) →
      (∀ y ∈ x :: l, y = -1 ∨ 0 ≤ y) → (-1 : Int) ∈ x :: l →
      (x :: l).getLast? = some (-1) := by
  induction l with
  | nil =>
    intro x _ _ hm
    have : (-1 : Int) = x := by simpa using hm
    rw [← this]
    rfl
  | cons y t ih =>
    intro x hch hdom hm
    rw [List.getLast?_cons_cons]
    have hch' := List.chain'_cons.mp hch
    apply ih y hch'.2 (fun z hz => hdom z (List.mem_cons_of_mem _ hz))
    rcases List.mem_cons.mp hm with h1 | h1
    · exfalso
      have hyx : y < x := hch'.1
      rcases hdom y (List.mem_cons_of_mem _ (List.mem_cons_self _ _)) with h2 | h2
      · omega
      · omega
    · exact h1

/-- First spec-scenario log line: height 100, tx 10, midnight UTC. -/
def tipLine100 : List Char :=
  "2024-01-01T00:00:00Z UpdateTip: new best=00000000aabbccdd height=100 tx=10".toList

/-- Second spec-scenario log line: height 101, tx 12, one minute later. -/
def tipLine101 : List Char :=
  "2024-01-01T00:01:00Z UpdateTip: new best=00000000bbccddee height=101 tx=12".toList

/-! ## Claim C2 — dedup and ordering of the reconstructed sequence -/

/-- **C2.** For a log whose tip-update lines reference `M` distinct parsed
heights (failed parses all contributing the single height `-1`), with `M`
within the 200-entry scan cap and `limit ≥ M`: the output has exactly `M`
rows, the row heights are strictly descending (so each height appears
exactly once, and the failed-parse height `-1`, being below every parsed
height, sorts last), and the row heights are exactly the heights
referenced by the tip-update lines. -/
theorem C2_dedup_and_ordering (tz : Int) (tn : String) (lines : List (List Char))
    (limit : Nat)
    (hne : updateTipHeights tz lines ≠ [])
    (hcap : (updateTipHeights tz lines).dedup.length ≤ 200)
    (hlim : (updateTipHeights tz lines).dedup.length ≤ limit) :
    (getUpdateTipEntries tz tn lines limit).1.length
        = (updateTipHeights tz lines).dedup.length ∧
    List.Chain' (fun a b : Int => b < a)
      ((getUpdateTipEntries tz tn lines limit).1.map TipRow.height) ∧
    (∀ h : Int,
      h ∈ (getUpdateTipEntries tz tn lines limit).1.map TipRow.height ↔
        h ∈ updateTipHeights tz lines) ∧
    ((-1 : Int) ∈ (getUpdateTipEntries tz tn lines limit).1.map TipRow.height →
      ((getUpdateTipEntries tz tn lines limit).1.map TipRow.height).getLast?
        = some (-1)) := by
  have hperm0 : ((collectEntriesNoCap tz lines.reverse []).map TipEntry.height).Perm
      (updateTipHeights tz lines).dedup := by
    refine (List.perm_ext_iff_of_nodup (collectNoCap_heights_nodup tz _ _)
      (List.nodup_dedup _)).mpr ?_
    intro a
    rw [List.mem_dedup, collectNoCap_mem_height]
    simp [updateTipHeights]
  have hlen0 : (collectEntriesNoCap tz lines.reverse []).length
      = (updateTipHeights tz lines).dedup.length := by
    simpa using hperm0.length_eq
  have hColl : collectEntries tz lines.reverse [] 0 = collectEntriesNoCap tz lines.reverse [] :=
    collectEntries_eq_noCap tz _ [] 0 (by omega)
  have hes_perm : (sortedEntries tz lines).Perm (collectEntriesNoCap tz lines.reverse []) := by
    unfold sortedEntries
    rw [hColl]
    exact List.perm_insertionSort _ _
  have hes_heights_perm : ((sortedEntries tz lines).map TipEntry.height).Perm
      (updateTipHeights tz lines).dedup := (hes_perm.map _).trans hperm0
  have hes_len : (sortedEntries tz lines).length = (updateTipHeights tz lines).dedup.length := by
    simpa using hes_heights_perm.length_eq
  have hes_nodup : ((sortedEntries tz lines).map TipEntry.height).Nodup :=
    hes_heights_perm.nodup_iff.mpr (List.nodup_dedup _)
  have hes_sorted : List.Sorted tipGE (sortedEntries tz lines) := by
    unfold sortedEntries
    exact List.sorted_insertionSort tipGE _
  have hpw : List.Pairwise (fun a b : TipEntry => b.height < a.height)
      (sortedEntries tz lines) := by
    have h2 : List.Pairwise (fun a b : TipEntry => a.height ≠ b.height)
        (sortedEntries tz lines) := List.pairwise_map.mp hes_nodup
    exact (hes_sorted.and h2).imp
      (fun hab => lt_of_le_of_ne hab.1 (fun hh => hab.2 hh.symm))
  have hchain : List.Chain' (fun a b : Int => b < a)
      ((sortedEntries tz lines).map TipEntry.height) :=
    (List.pairwise_map.mpr hpw).chain'
  have hne_es : sortedEntries tz lines ≠ [] := by
    intro h
    rw [h] at hes_len
    have : (updateTipHeights tz lines).dedup = [] := by
      cases hd : (updateTipHeights tz lines).dedup with
      | nil => rfl
      | cons a b => rw [hd] at hes_len; simp at hes_len
    exact hne ((List.dedup_eq_nil _).mp this)
  have hmin : min limit (sortedEntries tz lines).length = (sortedEntries tz lines).length := by
    rw [hes_len]
    exact Nat.min_eq_right hlim
  have hrows : (getUpdateTipEntries tz tn lines limit).1
      = (List.range (sortedEntries tz lines).length).map
          (renderRow (sortedEntries tz lines)) := by
    rw [getRows_eq tz tn lines limit hne_es, hmin]
  have hrows_heights : (getUpdateTipEntries tz tn lines limit).1.map TipRow.height
      = (sortedEntries tz lines).map TipEntry.height := by
    rw [hrows, List.map_map]
    exact rows_map_height _
  refine ⟨?_, ?_, ?_, ?_⟩
  · rw [hrows, List.length_map, List.length_range]
    exact hes_len
  · rw [hrows_heights]
    exact hchain
  · intro h
    rw [hrows_heights, hes_heights_perm.mem_iff, List.mem_dedup]
  · intro hmem
    rw [hrows_heights] at hmem ⊢
    cases hh : (sortedEntries tz lines).map TipEntry.height with
    | nil =>
      rw [hh] at hmem
      simp at hmem
    | cons x l =>
      rw [hh] at hmem hchain
      apply chain_desc_getLast l x hchain ?_ hmem
      intro y hy
      rw [← hh] at hy
      have hyH : y ∈ updateTipHeights tz lines := by
        rw [hes_heights_perm.mem_iff, List.mem_dedup] at hy
        exact hy
      obtain ⟨lline, _, rfl⟩ := List.mem_map.mp hyH
      exact parseTipLine_height_cases tz lline

/-- Tip-update line with a duplicate height 100 (newest in the log). -/
def tipLineDup100 : List Char :=
  "2024-01-01T00:02:00Z UpdateTip: new best=00000000ddeeff00 height=100 tx=11".toList

/-- Tip-update line whose height (and timestamp) fail to parse. -/
def tipLineBad : List Char :=
  "noheight UpdateTip event ffffffff".toList

/-- Witness for C2: four tip-update lines referencing heights
`{100, 101, -1, 100}` (three distinct) give exactly three rows, with the
failed-parse height `-1` sorting last. -/
theorem C2_witness :
    (getUpdateTipEntries 0 "UTC" [tipLine100, tipLineBad, tipLine101, tipLineDup100] 5).1.length
        = 3 ∧
    ((getUpdateTipEntries 0 "UTC" [tipLine100, tipLineBad, tipLine101, tipLineDup100] 5).1.map
        TipRow.height).getLast? = some (-1) := by
  have main := C2_dedup_and_ordering 0 "UTC" [tipLine100, tipLineBad, tipLine101, tipLineDup100]
    5 (by decide) (by decide) (by decide)
  exact ⟨main.1.trans (by decide), main.2.2.2 ((main.2.2.1 (-1)).mpr (by decide))⟩

/-! ## Claims C1 and C3 — per-row marker and delta -/

/-- **C1 counterexample.** On the spec's own end-to-end input (heights 100
and 101 one minute apart with tx=10 and tx=12, limit 10), the newer row's
marker is `"empty"`, not the claimed `"0 tx"`; and adjacent counts 5 and 7
yield `"empty"` (newer 7 over older 5) or `"0 tx"` (newer 5 over older 7)
but never a 2-transaction marker, while equal counts yield `"0 tx"`, not
`"empty"`. -/
theorem C1_counterexample :
    ((getUpdateTipEntries 0 "UTC" [tipLine100, tipLine101] 10).1.map
        (fun r => (r.height, r.delta, r.marker)))
      = [((101 : Int), "1m 0s", "empty"), ((100 : Int), "-", "")] ∧
    ("empty" : String) ≠ "0 tx" ∧
    fmtMarker 7 5 = "empty" ∧ ("empty" : String) ≠ "2 tx" ∧
    fmtMarker 5 7 = "0 tx" ∧
    fmtMarker 5 5 = "0 tx" ∧ ("0 tx" : String) ≠ "empty" :=
  ⟨by decide, by decide, by decide, by decide, by decide, by decide, by decide⟩

/-- **C1 amended.** For adjacent rows whose transaction counts are both
present (newer count `a` at the higher height, older count `b` next), the
marker on the newer row is `"empty"` exactly when `b = a - 2` (the newer
count exceeds the older by exactly the two housekeeping transactions);
otherwise it is `max (|a - b| - 2) 0` followed by `" tx"`. -/
theorem C1_marker_semantics (tz : Int) (tn : String) (lines : List (List Char))
    (limit i : Nat) (e1 e2 : TipEntry) (a b : Int)
    (h1 : (sortedEntries tz lines)[i]? = some e1)
    (h2 : (sortedEntries tz lines)[i + 1]? = some e2)
    (ha : e1.txCount = some a) (hb : e2.txCount = some b)
    (hlim : i < limit) :
    ((getUpdateTipEntries tz tn lines limit).1[i]?).map TipRow.marker
      = some (if b = a - 2 then "empty" else s!"{(max (|a - b| - 2) 0).toNat} tx") := by
  have hlen : i < (sortedEntries tz lines).length := (List.getElem?_eq_some.mp h1).1
  have hne : sortedEntries tz lines ≠ [] := by
    intro h
    rw [h] at h1
    simp at h1
  rw [rows_getElem? tz tn lines limit i hne (lt_min hlim hlen),
    renderRow_of_next _ _ _ _ h1 h2]
  simp [ha, hb, fmtMarker]

/-- The parsed entry for `tipLine101` (instant in microseconds UTC). -/
def tipEntry101 : TipEntry :=
  ⟨101, "0000", "2024-01-01 12:01:00 AM", some 1704067260000000, some 12⟩

/-- The parsed entry for `tipLine100`. -/
def tipEntry100 : TipEntry :=
  ⟨100, "0000", "2024-01-01 12:00:00 AM", some 1704067200000000, some 10⟩

/-- Witness for C1 amended: on the spec scenario the newer row's marker is
`"empty"` (`10 = 12 - 2`). -/
theorem C1_witness :
    ((getUpdateTipEntries 0 "UTC" [tipLine100, tipLine101] 10).1[0]?).map TipRow.marker
      = some "empty" :=
  (C1_marker_semantics 0 "UTC" [tipLine100, tipLine101] 10 0 tipEntry101 tipEntry100 12 10
      (by decide) (by decide) rfl rfl (by decide)).trans (by decide)

/-- **C3.** For adjacent rows whose timestamps both parsed, the newer
row's delta display is the absolute timestamp difference in whole
seconds, rendered `"Xm Ys"` from 60 seconds up and `"Ys"` below; if
either adjacent timestamp failed to parse, the delta display is the
sentinel `"-"`. -/
theorem C3_delta_display (tz : Int) (tn : String) (lines : List (List Char))
    (limit i : Nat) (e1 e2 : TipEntry)
    (h1 : (sortedEntries tz lines)[i]? = some e1)
    (h2 : (sortedEntries tz lines)[i + 1]? = some e2)
    (hlim : i < limit) :
    (∀ t1 t2 : Int, e1.parsedTime = some t1 → e2.parsedTime = some t2 →
      ((getUpdateTipEntries tz tn lines limit).1[i]?).map TipRow.delta
        = some (if 60 ≤ (t1 - t2).natAbs / 1000000 then
            s!"{(t1 - t2).natAbs / 1000000 / 60}m {(t1 - t2).natAbs / 1000000 % 60}s"
          else s!"{(t1 - t2).natAbs / 1000000}s")) ∧
    ((e1.parsedTime = none ∨ e2.parsedTime = none) →
      ((getUpdateTipEntries tz tn lines limit).1[i]?).map TipRow.delta = some "-") := by
  have hlen : i < (sortedEntries tz lines).length := (List.getElem?_eq_some.mp h1).1
  have hne : sortedEntries tz lines ≠ [] := by
    intro h
    rw [h] at h1
    simp at h1
  have hrow := rows_getElem? tz tn lines limit i hne (lt_min hlim hlen)
  constructor
  · intro t1 t2 hp1 hp2
    rw [hrow, renderRow_of_next _ _ _ _ h1 h2]
    simp [hp1, hp2, fmtDelta_spec]
  · intro hcase
    rw [hrow, renderRow_of_next _ _ _ _ h1 h2]
    rcases hcase with hp | hp
    · simp [hp]
    · cases hp1 : e1.parsedTime <;> simp [hp, hp1]

/-- Witness for C3: on the spec scenario the newer row's delta display is
`"1m 0s"` (60 whole seconds). -/
theorem C3_witness :
    ((getUpdateTipEntries 0 "UTC" [tipLine100, tipLine101] 10).1[0]?).map TipRow.delta
      = some "1m 0s" :=
  (((C3_delta_display 0 "UTC" [tipLine100, tipLine101] 10 0 tipEntry101 tipEntry100
      (by decide) (by decide) (by decide)).1 1704067260000000 1704067200000000
      rfl rfl)).trans (by decide)

/-! ## Claim C5 — private / loopback / link-local addresses are filtered -/

/-- **C5.** An address whose normalised form is private, loopback or
link-local gets `none` from `lookup`, with zero network fetch attempts
and an unchanged state (so nothing is cached); in particular the
normalised forms of `127.0.0.1`, `10.0.0.5`, `192.168.1.1`, `::1` and
`fe80::1` are all rejected this way. -/
theorem C5_private_addresses_never_looked_up
    (st : GeoState) (net : String → Option GeoRecord) (ip : String)
    (hpriv : isPrivateOrLocal (cleanIp ip) = true) :
    lookup st net ip = (none, st, 0) ∧
    lookup st net "127.0.0.1" = (none, st, 0) ∧
    lookup st net "10.0.0.5" = (none, st, 0) ∧
    lookup st net "192.168.1.1" = (none, st, 0) ∧
    lookup st net "::1" = (none, st, 0) ∧
    lookup st net "fe80::1" = (none, st, 0) := by
  have key : ∀ s : String, isPrivateOrLocal (cleanIp s) = true →
      lookup st net s = (none, st, 0) := by
    intro s hs
    unfold lookup
    by_cases he : pyStrip s = ""
    · simp [he]
    · simp [he, hs]
  exact ⟨key ip hpriv, key _ (by decide), key _ (by decide), key _ (by decide),
    key _ (by decide), key _ (by decide)⟩

/-- Witness for C5 at the concrete address `10.0.0.5` on a fresh cache. -/
theorem C5_witness :
    lookup (freshGeoCache none) (fun _ => none) "10.0.0.5" = (none, freshGeoCache none, 0) :=
  (C5_private_addresses_never_looked_up (freshGeoCache none) (fun _ => none)
    "10.0.0.5" (by decide)).1

/-! ## Claim C4 — cache round trip for public addresses -/

/-- **C4.** A cache miss on a public address with a successful network
resolution returns the fetched record, persists the updated dict to the
cache file, and a freshly constructed instance over that file answers the
same address from cache with the identical record and zero network fetch
attempts; a failed resolution returns `none`, leaves the state (memory
and file) unchanged, and still counts a fetch attempt, so it is retried
on every subsequent call. -/
theorem C4_cache_round_trip
    (file : Option (List (String × GeoRecord))) (net : String → Option GeoRecord)
    (ip : String) (r : GeoRecord)
    (hpriv : isPrivateOrLocal (cleanIp ip) = false)
    (hmiss : pyDictGet (freshGeoCache file).cache (cleanIp ip) = none)
    (hnet : net (cleanIp ip) = some r) :
    lookup (freshGeoCache file) net ip
      = (some r, saveCache (pyDictSet (freshGeoCache file).cache (cleanIp ip) r), 1) ∧
    pyDictGet (pyDictSet (freshGeoCache file).cache (cleanIp ip) r) (cleanIp ip) = some r ∧
    (∀ net2 : String → Option GeoRecord,
      lookup (freshGeoCache
          (saveCache (pyDictSet (freshGeoCache file).cache (cleanIp ip) r)).file) net2 ip
        = (some r,
           freshGeoCache (some (pyDictSet (freshGeoCache file).cache (cleanIp ip) r)), 0)) ∧
    (∀ net3 : String → Option GeoRecord, net3 (cleanIp ip) = none →
      lookup (freshGeoCache file) net3 ip = (none, freshGeoCache file, 1)) := by
  have hstrip : ¬ pyStrip ip = "" := by
    intro he
    rw [cleanIp_of_strip_empty he] at hpriv
    exact absurd hpriv (by decide)
  refine ⟨?_, pyDictGet_set_self _ _ _, ?_, ?_⟩
  · unfold lookup
    simp [hstrip, hpriv, hmiss, hnet]
  · intro net2
    unfold lookup
    simp [hstrip, hpriv, saveCache, freshGeoCache, pyDictGet_set_self]
  · intro net3 hn3
    unfold lookup
    simp [hstrip, hpriv, hmiss, hn3]

/-- Network oracle for the C4 witness. -/
def geoRecEx : GeoRecord := ⟨37, -122, "US", 1700000000⟩

/-- Oracle resolving exactly `8.8.8.8` for the C4 witness. -/
def geoNetEx : String → Option GeoRecord :=
  fun s => if s = "8.8.8.8" then some geoRecEx else none

/-- Witness for C4: the round trip at `8.8.8.8` on an absent cache file. -/
theorem C4_witness :
    lookup (freshGeoCache none) geoNetEx "8.8.8.8"
      = (some geoRecEx,
         saveCache (pyDictSet (freshGeoCache none).cache (cleanIp "8.8.8.8") geoRecEx), 1) ∧
    lookup (freshGeoCache
        (saveCache (pyDictSet (freshGeoCache none).cache (cleanIp "8.8.8.8") geoRecEx)).file)
      (fun _ => none) "8.8.8.8"
      = (some geoRecEx,
         freshGeoCache (some (pyDictSet (freshGeoCache none).cache (cleanIp "8.8.8.8") geoRecEx)),
         0) :=
  ⟨(C4_cache_round_trip none geoNetEx "8.8.8.8" geoRecEx (by decide) (by decide) (by decide)).1,
   (C4_cache_round_trip none geoNetEx "8.8.8.8" geoRecEx (by decide) (by decide)
      (by decide)).2.2.1 (fun _ => none)⟩

/-! ## Claim C6 — my-location TTL -/

/-- **C6.** `get_my_location` answers from the cached reserved record,
with zero network calls, exactly while the record is younger than the
1-hour TTL; once `now - ts` reaches the TTL it attempts a re-fetch,
overwrites the reserved record in place on success (timestamped `now`),
and on fetch failure returns `none` — not the stale cached value — with
the state unchanged. -/
theorem C6_my_location_ttl (st : GeoState) (now : Int) (net : Option (Rat × Rat × String)) :
    (∀ c, pyDictGet st.cache myLocationKey = some c → now - c.ts < myLocationTTL →
      getMyLocation st now net = (some (c.lat, c.lon), st, 0)) ∧
    (∀ c, pyDictGet st.cache myLocationKey = some c → myLocationTTL ≤ now - c.ts →
      ((∀ lat lon cc, net = some (lat, lon, cc) →
          getMyLocation st now net
            = (some (lat, lon),
               saveCache (pyDictSet st.cache myLocationKey ⟨lat, lon, ⟨cc.toList.take 2⟩, now⟩),
               1)) ∧
       (net = none → getMyLocation st now net = (none, st, 1)))) := by
  constructor
  · intro c hc hfresh
    unfold getMyLocation
    rw [hc]
    simp [hfresh]
  · intro c hc hexp
    have hnot : ¬ (now - c.ts < myLocationTTL) := not_lt.mpr hexp
    constructor
    · intro lat lon cc hnet
      unfold getMyLocation
      rw [hc]
      simp [hnot, getMyLocation.getMyLocationFetch, hnet]
    · intro hnet
      unfold getMyLocation
      rw [hc]
      simp [hnot, getMyLocation.getMyLocationFetch, hnet]

/-- Cached my-location record for the C6 witness (timestamp 0). -/
def myLocRecEx : GeoRecord := ⟨10, 20, "US", 0⟩

/-- Cache state holding the reserved my-location record, for the C6 witness. -/
def myLocStEx : GeoState := ⟨[(myLocationKey, myLocRecEx)], none⟩

/-- Witness for C6: at `now = 100` the record (age 100 s) is served from
cache with no fetch; at `now = 4000` (age over the TTL) a failing fetch
yields `none` rather than the stale coordinates. -/
theorem C6_witness :
    getMyLocation myLocStEx 100 (some (1, 2, "USA")) = (some (10, 20), myLocStEx, 0) ∧
    getMyLocation myLocStEx 4000 none = (none, myLocStEx, 1) :=
  ⟨(C6_my_location_ttl myLocStEx 100 (some (1, 2, "USA"))).1 myLocRecEx (by decide) (by decide),
   ((C6_my_location_ttl myLocStEx 4000 none).2 myLocRecEx (by decide) (by decide)).2 rfl⟩

/-! ## Claim C9 — `sendtoaddress` validation and fallback -/

/-- **C9.** A blank (empty after trimming) address, an unparseable amount,
or a non-positive amount each make `sendtoaddress` return `(False, <specific
message>)` with no RPC or CLI call issued; on valid inputs the HTTP RPC is
attempted first, the CLI fallback (when the RPC raises) carries the same
parameters `[address, amount]`, and the result is `(success,
txid-or-error-message)` per channel outcome. -/
theorem C9_sendtoaddress_validation (w : RpcWorld) (address : String) (amount : AmountInput) :
    (pyStrip address = "" →
      sendtoaddress w address amount = ((false, "Address is required"), [])) ∧
    (pyStrip address ≠ "" → floatOf amount = none →
      sendtoaddress w address amount = ((false, "Invalid amount"), [])) ∧
    (∀ q, pyStrip address ≠ "" → floatOf amount = some q → q ≤ 0 →
      sendtoaddress w address amount = ((false, "Amount must be positive"), [])) ∧
    (∀ q, pyStrip address ≠ "" → floatOf amount = some q → 0 < q →
      ((∀ r, w.rpcSend = some r →
          sendtoaddress w address amount
            = ((true, r.getD "Sent"),
               [.rpc "sendtoaddress" [.str (pyStrip address), .num q]])) ∧
       (w.rpcSend = none →
          (sendtoaddress w address amount).2
            = [.rpc "sendtoaddress" [.str (pyStrip address), .num q],
               .cli "sendtoaddress" [.str (pyStrip address), .num q]]) ∧
       (w.rpcSend = none → ∀ t, w.cliSend = some t →
          (sendtoaddress w address amount).1 = (true, t)) ∧
       (w.rpcSend = none → w.cliSend = none →
          (sendtoaddress w address amount).1 = (false, "Send failed")))) := by
  refine ⟨?_, ?_, ?_, ?_⟩
  · intro h
    unfold sendtoaddress
    simp [h]
  · intro h hf
    unfold sendtoaddress
    simp [h, hf]
  · intro q h hf hq
    unfold sendtoaddress
    simp [h, hf, hq]
  · intro q h hf hq
    have hq' : ¬ q ≤ 0 := not_le.mpr hq
    refine ⟨?_, ?_, ?_, ?_⟩
    · intro r hr
      unfold sendtoaddress
      simp [h, hf, hq', hr]
    · intro hr
      unfold sendtoaddress
      cases hc : w.cliSend <;> simp [h, hf, hq', hr, hc]
    · intro hr t ht
      unfold sendtoaddress
      simp [h, hf, hq', hr, ht]
    · intro hr ht
      unfold sendtoaddress
      simp [h, hf, hq', hr, ht]

/-- Witness for C9: a successful RPC send of 5 coins, and a blank-address
rejection with no calls. -/
theorem C9_witness :
    sendtoaddress ⟨some (some "tx1"), none, none⟩ "LYNXaddr" (.val 5)
      = ((true, "tx1"),
         [.rpc "sendtoaddress" [.str (pyStrip "LYNXaddr"), .num 5]]) ∧
    sendtoaddress ⟨some (some "tx1"), none, none⟩ " " (.val 5)
      = ((false, "Address is required"), []) :=
  ⟨((C9_sendtoaddress_validation ⟨some (some "tx1"), none, none⟩ "LYNXaddr" (.val 5)).2.2.2
      5 (by decide) rfl (by decide)).1 (some "tx1") rfl,
   (C9_sendtoaddress_validation ⟨some (some "tx1"), none, none⟩ " " (.val 5)).1 (by decide)⟩

/-! ## Claim C10 — `sweep_to_address` balance handling (corrected) -/

/-- **C10 counterexample.** The claim quantifies over every address, but a
blank address is rejected as `"Address is required"` before the balance
query, so a failing balance query does not produce
`(False, "No balance to sweep")` there. -/
theorem C10_counterexample :
    (RpcWorld.mk none none none).balance = none ∧
    sweep_to_address ⟨none, none, none⟩ "" = ((false, "Address is required"), []) ∧
    ("Address is required" : String) ≠ "No balance to sweep" := by
  exact ⟨rfl, by decide, by decide⟩

/-- **C10 amended.** For every address that is non-blank after trimming:
if the balance query fails (defaulting to `0.0`) or reports a non-positive
balance, `sweep_to_address` returns `(False, "No balance to sweep")`
having issued only the balance query and no send operation over RPC or
CLI; and in the send path every send call's amount parameter is exactly
the fetched balance (the operation takes no caller-supplied amount). -/
theorem C10_sweep_balance (w : RpcWorld) (address : String)
    (haddr : pyStrip address ≠ "") :
    (w.balance.getD 0 ≤ 0 →
      sweep_to_address w address
        = ((false, "No balance to sweep"), [.rpc "getbalance" []]) ∧
      ∀ e ∈ (sweep_to_address w address).2, isSendCall e = false) ∧
    (∀ b, w.balance = some b → 0 < b →
      ∀ e ∈ (sweep_to_address w address).2, isSendCall e = true →
        (e = .rpc "sendtoaddress"
            [.str (pyStrip address), .num b, .str "", .str "", .bool true] ∨
         e = .cli "sendtoaddress"
            [.str (pyStrip address), .num b, .str "", .str "", .bool true])) := by
  constructor
  · intro hbal
    have heq : sweep_to_address w address
        = ((false, "No balance to sweep"), [.rpc "getbalance" []]) := by
      unfold sweep_to_address
      simp [haddr, hbal]
    refine ⟨heq, ?_⟩
    rw [heq]
    intro e he
    simp at he
    subst he
    rfl
  · intro b hb hpos e he hsend
    unfold sweep_to_address at he
    rw [hb] at he
    cases hr : w.rpcSend with
    | some r =>
      simp [haddr, hr, not_le.mpr hpos] at he
      rcases he with he | he
      · subst he; exact absurd hsend (by decide)
      · subst he; left; rfl
    | none =>
      cases hc : w.cliSend with
      | some t =>
        simp [haddr, hr, hc, not_le.mpr hpos] at he
        rcases he with he | he | he
        · subst he; exact absurd hsend (by decide)
        · subst he; left; rfl
        · subst he; right; rfl
      | none =>
        simp [haddr, hr, hc, not_le.mpr hpos] at he
        rcases he with he | he | he
        · subst he; exact absurd hsend (by decide)
        · subst he; left; rfl
        · subst he; right; rfl

/-- Witness for C10 amended: a failing balance query on a non-blank
address refuses to sweep with only the balance call issued. -/
theorem C10_witness :
    sweep_to_address ⟨none, none, none⟩ "LYNXaddr"
      = ((false, "No balance to sweep"), [.rpc "getbalance" []]) :=
  ((C10_sweep_balance ⟨none, none, none⟩ "LYNXaddr" (by decide)).1 (by decide)).1

/-! ## Claim C8 — latest Block Statistics line -/

/-- **C8.** When the log contains a line `L` with `"Block Statistics"` and
no later line contains it, `get_latest_block_statistics` extracts exactly
that single most recent line (reformatted by `fmtStatLine`), and the
display pipeline (`_fetch_block_stats`) turns it into the structured
`(period, totalSeconds, description)` triples of `parsePeriodsOf`; both
are pure functions of the log content, carrying no state between calls. -/
theorem C8_latest_block_statistics (l₁ l₂ : List (List Char)) (L : List Char)
    (hL : containsSub "Block Statistics".toList L = true)
    (h₂ : ∀ l ∈ l₂, containsSub "Block Statistics".toList l = false) :
    getLatestBlockStatistics (l₁ ++ L :: l₂) = fmtStatLine L ∧
    fetchBlockStats (l₁ ++ L :: l₂)
      = (⟨stripCrlf (fmtStatLine L)⟩, parsePeriodsOf (stripCrlf (fmtStatLine L))) := by
  have hfind : (l₁ ++ L :: l₂).reverse.find?
      (fun l => containsSub "Block Statistics".toList l) = some L := by
    rw [List.reverse_append, List.reverse_cons, List.find?_append, List.find?_append]
    have h2' : l₂.reverse.find? (fun l => containsSub "Block Statistics".toList l) = none := by
      rw [List.find?_eq_none]
      intro x hx
      simpa using h₂ x (List.mem_reverse.mp hx)
    rw [h2', List.find?_cons_of_pos _ hL]
    rfl
  constructor
  · unfold getLatestBlockStatistics
    rw [hfind]
  · unfold fetchBlockStats getLatestBlockStatistics
    rw [hfind]

/-- A concrete daemon Block Statistics line for the C8 witness. -/
def statLineEx : List Char :=
  "2024-01-01T00:00:00Z Block Statistics - 1 hour: 120s (2 blocks), 1 day: 300s (5 blocks)".toList

/-- Witness for C8: a three-line log whose middle line is the most recent
Block Statistics line; the display pipeline extracts its two triples. -/
theorem C8_witness :
    getLatestBlockStatistics (["other line".toList] ++ statLineEx :: ["tail line".toList])
      = fmtStatLine statLineEx ∧
    fetchBlockStats (["other line".toList] ++ statLineEx :: ["tail line".toList])
      = (⟨stripCrlf (fmtStatLine statLineEx)⟩,
         parsePeriodsOf (stripCrlf (fmtStatLine statLineEx))) ∧
    parsePeriodsOf (stripCrlf (fmtStatLine statLineEx))
      = [("1 hour", 120, "(2 blocks)"), ("1 day", 300, "(5 blocks)")] :=
  ⟨(C8_latest_block_statistics ["other line".toList] ["tail line".toList] statLineEx
      (by decide) (by decide)).1,
   (C8_latest_block_statistics ["other line".toList] ["tail line".toList] statLineEx
      (by decide) (by decide)).2,
   by decide⟩

/-! ## Claim C7 infrastructure — marker placement -/

/-- A clamped coordinate is nonnegative. -/
theorem clampCoord_nonneg (n : Nat) (v : Int) : 0 ≤ clampCoord n v :=
  le_max_left 0 _

/-- A clamped coordinate is below `n` for a nonempty axis. -/
theorem clampCoord_lt (n : Nat) (v : Int) (h : 1 ≤ n) : clampCoord n v < (n : Int) := by
  unfold clampCoord
  omega

/-- `placeMarker` always writes marker `idx` at its `placedCell`. -/
theorem placeMarker_eq_cellSet (cols rows : Nat) (g : CellMap) (idx : Nat)
    (b : Int × Int) :
    placeMarker cols rows g idx b = cellSet g (placedCell cols rows g b) idx := by
  unfold placeMarker placedCell
  dsimp only
  cases spiralOffsets.find?
    (inBoundsFree cols rows g (clampCoord cols b.1) (clampCoord rows b.2)) <;> rfl

/-- Reading the just-written cell. -/
theorem cellSet_self (g : CellMap) (c : Nat × Nat) (i : Nat) :
    cellSet g c i c = some i := by
  simp [cellSet]

/-- Reading a different cell. -/
theorem cellSet_other (g : CellMap) (c : Nat × Nat) (i : Nat) (c' : Nat × Nat)
    (h : c' ≠ c) : cellSet g c i c' = g c' := by
  simp [cellSet, h]

/-- Placement never clears an occupied cell. -/
theorem placeMarker_ne_none (cols rows : Nat) (g : CellMap) (idx : Nat)
    (b : Int × Int) (c : Nat × Nat) (h : g c ≠ none) :
    placeMarker cols rows g idx b c ≠ none := by
  rw [placeMarker_eq_cellSet]
  by_cases hc : c = placedCell cols rows g b
  · rw [hc, cellSet_self]
    simp
  · rw [cellSet_other _ _ _ _ hc]
    exact h

/-- The loop over an appended list runs the two parts in sequence, the
second starting at the index after the first part. -/
theorem placeMarkersAux_append (cols rows : Nat) :
    ∀ (l1 l2 : List (Int × Int)) (g : CellMap) (i : Nat),
      placeMarkersAux cols rows g i (l1 ++ l2)
        = placeMarkersAux cols rows (placeMarkersAux cols rows g i l1)
            (i + l1.length) l2
  | [], l2, g, i => by simp [placeMarkersAux]
  | b :: bs, l2, g, i => by
    have hidx : i + (b :: bs).length = i + 1 + bs.length := by
      simp only [List.length_cons]
      omega
    rw [hidx]
    show placeMarkersAux cols rows (placeMarker cols rows g i b) (i + 1) (bs ++ l2) = _
    exact placeMarkersAux_append cols rows bs l2 (placeMarker cols rows g i b) (i + 1)

/-- The loop never clears an occupied cell. -/
theorem placeMarkersAux_ne_none (cols rows : Nat) :
    ∀ (l : List (Int × Int)) (g : CellMap) (i : Nat) (c : Nat × Nat),
      g c ≠ none → placeMarkersAux cols rows g i l c ≠ none
  | [], _, _, _, h => h
  | b :: bs, g, i, c, h =>
    placeMarkersAux_ne_none cols rows bs _ (i + 1) c
      (placeMarker_ne_none cols rows g i b c h)

/-- Processing one more marker places it at its assigned cell. -/
theorem placeMarkers_take_succ (cols rows : Nat) (bases : List (Int × Int))
    (i : Nat) (hi : i < bases.length) :
    placeMarkers cols rows (bases.take (i + 1))
      = placeMarker cols rows (placeMarkers cols rows (bases.take i)) i
          (bases.getD i (0, 0)) := by
  unfold placeMarkers
  rw [List.take_succ, List.getElem?_eq_getElem hi,
    show (some bases[i]).toList = [bases[i]] from rfl,
    placeMarkersAux_append]
  have hlen : (bases.take i).length = i := by
    rw [List.length_take]
    omega
  rw [hlen]
  simp only [Nat.zero_add, placeMarkersAux]
  rw [List.getD_eq_getElem?_getD, List.getElem?_eq_getElem hi]
  rfl

/-- Adding markers to the log of processed ones keeps occupied cells occupied. -/
theorem placeMarkers_append_ne_none (cols rows : Nat) (l1 l2 : List (Int × Int))
    (c : Nat × Nat) (h : placeMarkers cols rows l1 c ≠ none) :
    placeMarkers cols rows (l1 ++ l2) c ≠ none := by
  unfold placeMarkers at h ⊢
  rw [placeMarkersAux_append]
  exact placeMarkersAux_ne_none cols rows l2 _ _ c h

/-- Every marker index is assigned to its cell when processed, and that
cell is still occupied in the final grid. -/
theorem placeMarkers_represents (cols rows : Nat) (bases : List (Int × Int))
    (i : Nat) (hi : i < bases.length) :
    placeMarkers cols rows (bases.take (i + 1)) (assignedCell cols rows bases i)
      = some i ∧
    placeMarkers cols rows bases (assignedCell cols rows bases i) ≠ none := by
  have h1 : placeMarkers cols rows (bases.take (i + 1))
      (assignedCell cols rows bases i) = some i := by
    rw [placeMarkers_take_succ cols rows bases i hi, placeMarker_eq_cellSet]
    exact cellSet_self _ _ _
  refine ⟨h1, ?_⟩
  have h2 := placeMarkers_append_ne_none cols rows (bases.take (i + 1))
    (bases.drop (i + 1)) (assignedCell cols rows bases i) (by rw [h1]; simp)
  rwa [List.take_append_drop] at h2

/-- When the spiral search finds a free cell, that cell was free. -/
theorem placedCell_free (cols rows : Nat) (g : CellMap) (b : Int × Int)
    (h : ∃ o ∈ spiralOffsets,
      inBoundsFree cols rows g (clampCoord cols b.1) (clampCoord rows b.2) o = true) :
    g (placedCell cols rows g b) = none := by
  have hs : (spiralOffsets.find?
      (inBoundsFree cols rows g (clampCoord cols b.1) (clampCoord rows b.2))).isSome := by
    rw [List.find?_isSome]
    exact h
  obtain ⟨o, ho⟩ := Option.isSome_iff_exists.mp hs
  have hp := List.find?_some ho
  unfold placedCell
  dsimp only
  rw [ho]
  simp only [inBoundsFree, Bool.and_eq_true, decide_eq_true_eq,
    Option.isNone_iff_eq_none] at hp
  exact hp.2

/-- Three markers whose computed base cells coincide (equal clamped
coordinates) occupy three distinct cells, each holding its own marker
index; no other cell is occupied. Requires the grid sizes `generate_map`
guarantees before placing markers (`cols ≥ 10`, `rows ≥ 5`). -/
theorem placeMarkers_three_collision (cols rows : Nat) (hc : 10 ≤ cols) (hr : 5 ≤ rows)
    (b1 b2 b3 : Int × Int)
    (h2c : clampCoord cols b2.1 = clampCoord cols b1.1)
    (h2r : clampCoord rows b2.2 = clampCoord rows b1.2)
    (h3c : clampCoord cols b3.1 = clampCoord cols b1.1)
    (h3r : clampCoord rows b3.2 = clampCoord rows b1.2) :
    ∃ c0 c1 c2 : Nat × Nat, c0 ≠ c1 ∧ c0 ≠ c2 ∧ c1 ≠ c2 ∧
      placeMarkers cols rows [b1, b2, b3] c0 = some 0 ∧
      placeMarkers cols rows [b1, b2, b3] c1 = some 1 ∧
      placeMarkers cols rows [b1, b2, b3] c2 = some 2 ∧
      ∀ c : Nat × Nat, placeMarkers cols rows [b1, b2, b3] c ≠ none →
        c = c0 ∨ c = c1 ∨ c = c2 := by
  obtain ⟨bc, hbc⟩ : ∃ v, clampCoord cols b1.1 = v := ⟨_, rfl⟩
  obtain ⟨br, hbr⟩ : ∃ v, clampCoord rows b1.2 = v := ⟨_, rfl⟩
  have hbc0 : 0 ≤ bc := hbc ▸ clampCoord_nonneg cols b1.1
  have hbclt : bc < (cols : Int) := hbc ▸ clampCoord_lt cols b1.1 (by omega)
  have hbr0 : 0 ≤ br := hbr ▸ clampCoord_nonneg rows b1.2
  have hbrlt : br < (rows : Int) := hbr ▸ clampCoord_lt rows b1.2 (by omega)
  obtain ⟨dc, hdcmem, hdc0, hdclt, hdcne⟩ :
      ∃ dc : Int, (dc, 0) ∈ spiralOffsets ∧ 0 ≤ bc + dc ∧ bc + dc < (cols : Int) ∧
        bc + dc ≠ bc := by
    by_cases h : bc + 1 < (cols : Int)
    · exact ⟨1, by decide, by omega, by omega, by omega⟩
    · exact ⟨-1, by decide, by omega, by omega, by omega⟩
  obtain ⟨dr, hdrmem, hdr0, hdrlt, hdrne⟩ :
      ∃ dr : Int, (0, dr) ∈ spiralOffsets ∧ 0 ≤ br + dr ∧ br + dr < (rows : Int) ∧
        br + dr ≠ br := by
    by_cases h : br + 1 < (rows : Int)
    · exact ⟨1, by decide, by omega, by omega, by omega⟩
    · exact ⟨-1, by decide, by omega, by omega, by omega⟩
  -- step 1: the first marker takes the base cell
  have hfree0 : inBoundsFree cols rows (fun _ => none) bc br (0, 0) = true := by
    simp only [inBoundsFree, Bool.and_eq_true, decide_eq_true_eq]
    refine ⟨⟨⟨⟨by omega, by omega⟩, by omega⟩, by omega⟩, rfl⟩
  have hfind0 : spiralOffsets.find? (inBoundsFree cols rows (fun _ => none) bc br)
      = some (0, 0) := by
    unfold spiralOffsets
    exact List.find?_cons_of_pos _ hfree0
  have hpc0 : placedCell cols rows (fun _ => none) b1 = (bc.toNat, br.toNat) := by
    unfold placedCell
    dsimp only
    rw [hbc, hbr, hfind0]
    simp
  set g1 := placeMarker cols rows (fun _ => none) 0 b1 with hg1def
  have hg1 : g1 = cellSet (fun _ => none) (bc.toNat, br.toNat) 0 := by
    rw [hg1def, placeMarker_eq_cellSet, hpc0]
  -- step 2: the second marker takes a free ring cell
  have hfree1 : inBoundsFree cols rows g1 bc br (dc, 0) = true := by
    simp only [inBoundsFree, Bool.and_eq_true, decide_eq_true_eq]
    refine ⟨⟨⟨⟨by omega, by omega⟩, by omega⟩, by omega⟩, ?_⟩
    rw [hg1, cellSet_other]
    · rfl
    · intro h
      have := congrArg Prod.fst h
      simp only at this
      omega
  have hex1 : ∃ o ∈ spiralOffsets, inBoundsFree cols rows g1 bc br o = true :=
    ⟨(dc, 0), hdcmem, hfree1⟩
  set c1 := placedCell cols rows g1 b2 with hc1def
  have hc1free : g1 c1 = none := by
    rw [hc1def]
    apply placedCell_free
    rw [h2c, h2r, hbc, hbr]
    exact hex1
  have hc1ne0 : c1 ≠ (bc.toNat, br.toNat) := by
    intro h
    rw [h, hg1, cellSet_self] at hc1free
    exact Option.noConfusion hc1free
  set g2 := placeMarker cols rows g1 1 b2 with hg2def
  have hg2 : g2 = cellSet g1 c1 1 := by
    rw [hg2def, placeMarker_eq_cellSet, ← hc1def]
  -- step 3: the third marker takes another free ring cell
  have hex2 : ∃ o ∈ spiralOffsets, inBoundsFree cols rows g2 bc br o = true := by
    by_cases hX : ((bc + dc).toNat, (br + (0 : Int)).toNat) = c1
    · refine ⟨(0, dr), hdrmem, ?_⟩
      simp only [inBoundsFree, Bool.and_eq_true, decide_eq_true_eq]
      refine ⟨⟨⟨⟨by omega, by omega⟩, by omega⟩, by omega⟩, ?_⟩
      have hne1 : ((bc + (0 : Int)).toNat, (br + dr).toNat) ≠ c1 := by
        rw [← hX]
        intro h
        have := congrArg Prod.snd h
        simp only at this
        omega
      have hne0 : ((bc + (0 : Int)).toNat, (br + dr).toNat) ≠ (bc.toNat, br.toNat) := by
        intro h
        have := congrArg Prod.snd h
        simp only at this
        omega
      rw [hg2, cellSet_other _ _ _ _ hne1, hg1, cellSet_other _ _ _ _ hne0]
      rfl
    · refine ⟨(dc, 0), hdcmem, ?_⟩
      simp only [inBoundsFree, Bool.and_eq_true, decide_eq_true_eq]
      refine ⟨⟨⟨⟨by omega, by omega⟩, by omega⟩, by omega⟩, ?_⟩
      have hne0 : ((bc + dc).toNat, (br + (0 : Int)).toNat) ≠ (bc.toNat, br.toNat) := by
        intro h
        have := congrArg Prod.fst h
        simp only at this
        omega
      rw [hg2, cellSet_other _ _ _ _ hX, hg1, cellSet_other _ _ _ _ hne0]
      rfl
  set c2 := placedCell cols rows g2 b3 with hc2def
  have hc2free : g2 c2 = none := by
    rw [hc2def]
    apply placedCell_free
    rw [h3c, h3r, hbc, hbr]
    exact hex2
  have hc2ne1 : c2 ≠ c1 := by
    intro h
    rw [h, hg2, cellSet_self] at hc2free
    exact Option.noConfusion hc2free
  have hc2ne0 : c2 ≠ (bc.toNat, br.toNat) := by
    intro h
    rw [h, hg2, cellSet_other _ _ _ _ (Ne.symm hc1ne0), hg1, cellSet_self] at hc2free
    exact Option.noConfusion hc2free
  have hfinal : placeMarkers cols rows [b1, b2, b3] = cellSet g2 c2 2 := by
    show placeMarkersAux cols rows (fun _ => none) 0 [b1, b2, b3] = _
    simp only [placeMarkersAux]
    rw [← hg1def, ← hg2def, placeMarker_eq_cellSet, ← hc2def]
  refine ⟨(bc.toNat, br.toNat), c1, c2, Ne.symm hc1ne0, Ne.symm hc2ne0, Ne.symm hc2ne1,
    ?_, ?_, ?_, ?_⟩
  · rw [hfinal, cellSet_other _ _ _ _ (Ne.symm hc2ne0), hg2,
      cellSet_other _ _ _ _ (Ne.symm hc1ne0), hg1, cellSet_self]
  · rw [hfinal, cellSet_other _ _ _ _ (Ne.symm hc2ne1), hg2, cellSet_self]
  · rw [hfinal, cellSet_self]
  · intro c hcne
    rw [hfinal] at hcne
    by_cases h2 : c = c2
    · exact Or.inr (Or.inr h2)
    rw [cellSet_other _ _ _ _ h2, hg2] at hcne
    by_cases h1 : c = c1
    · exact Or.inr (Or.inl h1)
    rw [cellSet_other _ _ _ _ h1, hg1] at hcne
    by_cases h0 : c = (bc.toNat, br.toNat)
    · exact Or.inl h0
    rw [cellSet_other _ _ _ _ h0] at hcne
    exact absurd rfl hcne

/-- When every spiral offset fails the in-bounds-and-free test (the base
cell and both rings are occupied or outside the grid), the base cell is
overwritten. -/
theorem placeMarker_overwrite (cols rows : Nat) (g : CellMap) (idx : Nat)
    (b : Int × Int)
    (h : ∀ o ∈ spiralOffsets,
      inBoundsFree cols rows g (clampCoord cols b.1) (clampCoord rows b.2) o = false) :
    placeMarker cols rows g idx b
      = cellSet g ((clampCoord cols b.1).toNat, (clampCoord rows b.2).toNat) idx := by
  unfold placeMarker
  dsimp only
  rw [List.find?_eq_none.mpr (fun o ho => by rw [h o ho]; exact Bool.false_ne_true)]

/-! ## Claim C7 — every marker is placed -/

/-- **C7.** On a grid at least 10×5 (the sizes `generate_map` renders at
all): (a) every input marker index is assigned to a grid cell — after its
step the grid maps its assigned cell to its index, and that cell is still
occupied in the final grid, so every peer is represented; (b) three
markers whose computed (clamped) base cells coincide end up in three
distinct cells, each traceable back to its original marker index, and no
other cell is occupied; (c) when the base cell and both surrounding rings
admit no in-bounds free cell, the base cell is overwritten with the new
marker's index. -/
theorem C7_marker_placement (cols rows : Nat) (hc : 10 ≤ cols) (hr : 5 ≤ rows) :
    (∀ (bases : List (Int × Int)) (i : Nat), i < bases.length →
      placeMarkers cols rows (bases.take (i + 1)) (assignedCell cols rows bases i)
          = some i ∧
      placeMarkers cols rows bases (assignedCell cols rows bases i) ≠ none) ∧
    (∀ b1 b2 b3 : Int × Int,
      clampCoord cols b2.1 = clampCoord cols b1.1 →
      clampCoord rows b2.2 = clampCoord rows b1.2 →
      clampCoord cols b3.1 = clampCoord cols b1.1 →
      clampCoord rows b3.2 = clampCoord rows b1.2 →
      ∃ c0 c1 c2 : Nat × Nat, c0 ≠ c1 ∧ c0 ≠ c2 ∧ c1 ≠ c2 ∧
        placeMarkers cols rows [b1, b2, b3] c0 = some 0 ∧
        placeMarkers cols rows [b1, b2, b3] c1 = some 1 ∧
        placeMarkers cols rows [b1, b2, b3] c2 = some 2 ∧
        ∀ c : Nat × Nat, placeMarkers cols rows [b1, b2, b3] c ≠ none →
          c = c0 ∨ c = c1 ∨ c = c2) ∧
    (∀ (g : CellMap) (idx : Nat) (b : Int × Int),
      (∀ o ∈ spiralOffsets,
        inBoundsFree cols rows g (clampCoord cols b.1) (clampCoord rows b.2) o = false) →
      placeMarker cols rows g idx b
        = cellSet g ((clampCoord cols b.1).toNat, (clampCoord rows b.2).toNat) idx) :=
  ⟨fun bases i hi => placeMarkers_represents cols rows bases i hi,
   fun b1 b2 b3 h2c h2r h3c h3r =>
     placeMarkers_three_collision cols rows hc hr b1 b2 b3 h2c h2r h3c h3r,
   fun g idx b h => placeMarker_overwrite cols rows g idx b h⟩

/-- Witness for C7: three markers with base cell `(5, 5)` on a 20×10 grid
occupy three distinct cells with indices 0, 1 and 2. -/
theorem C7_witness :
    ∃ c0 c1 c2 : Nat × Nat, c0 ≠ c1 ∧ c0 ≠ c2 ∧ c1 ≠ c2 ∧
      placeMarkers 20 10 [(5, 5), (5, 5), (5, 5)] c0 = some 0 ∧
      placeMarkers 20 10 [(5, 5), (5, 5), (5, 5)] c1 = some 1 ∧
      placeMarkers 20 10 [(5, 5), (5, 5), (5, 5)] c2 = some 2 ∧
      ∀ c : Nat × Nat, placeMarkers 20 10 [(5, 5), (5, 5), (5, 5)] c ≠ none →
        c = c0 ∨ c = c1 ∨ c = c2 :=
  (C7_marker_placement 20 10 (by decide) (by decide)).2.1 (5, 5) (5, 5) (5, 5)
    rfl rfl rfl rfl

end Beacon
